import Mathlib

/-!
Verification development for the self-hosted Expo updates server
(Cloudflare Worker edition). The definitions below are a shallow embedding
of the worker source: byte buffers are lists of naturals below 256, strings
are Lean strings, database tables are lists of row structures, and the two
external stores (D1 and R2) are passed as explicit state or as lookup
functions. External library calls that the worker does not implement itself
(js-md5, JSON.parse, JSON.stringify, Date.toISOString, crypto.subtle.sign)
are modelled as function parameters of the embedded handlers; the hashing
the worker performs through crypto.subtle.digest("SHA-256") is embedded as
a full executable SHA-256 so that identifier derivation can be evaluated.
-/

set_option maxRecDepth 40000

/- ====================================================================
   Section 1: bytes and characters
   ==================================================================== -/

/-- UTF-8 encoding of one character, as bytes (models TextEncoder). -/
def utf8Bytes (c : Char) : List Nat :=
  let n := c.toNat
  if n < 0x80 then [n]
  else if n < 0x800 then [0xC0 ||| (n >>> 6), 0x80 ||| (n &&& 0x3F)]
  else if n < 0x10000 then
    [0xE0 ||| (n >>> 12), 0x80 ||| ((n >>> 6) &&& 0x3F), 0x80 ||| (n &&& 0x3F)]
  else
    [0xF0 ||| (n >>> 18), 0x80 ||| ((n >>> 12) &&& 0x3F),
     0x80 ||| ((n >>> 6) &&& 0x3F), 0x80 ||| (n &&& 0x3F)]

/-- The UTF-8 bytes of a string (models new TextEncoder().encode(s)). -/
def strBytes (s : String) : List Nat := s.data.flatMap utf8Bytes

/- ====================================================================
   Section 2: SHA-256 (the digest behind services/manifest.ts hashAsset,
   which calls crypto.subtle.digest("SHA-256", data))
   ==================================================================== -/

/-- Truncation to a 32-bit word. -/
def w32 (n : Nat) : Nat := n % 4294967296

/-- 32-bit right rotation. -/
def rotr32 (n x : Nat) : Nat := w32 ((x >>> n) ||| (x <<< (32 - n)))

/-- The 64 SHA-256 round constants. -/
def sha256K : List Nat :=
  [1116352408, 1899447441, 3049323471, 3921009573, 961987163,
   1508970993, 2453635748, 2870763221, 3624381080, 310598401,
   607225278, 1426881987, 1925078388, 2162078206, 2614888103,
   3248222580, 3835390401, 4022224774, 264347078, 604807628,
   770255983, 1249150122, 1555081692, 1996064986, 2554220882,
   2821834349, 2952996808, 3210313671, 3336571891, 3584528711,
   113926993, 338241895, 666307205, 773529912, 1294757372,
   1396182291, 1695183700, 1986661051, 2177026350, 2456956037,
   2730485921, 2820302411, 3259730800, 3345764771, 3516065817,
   3600352804, 4094571909, 275423344, 430227734, 506948616,
   659060556, 883997877, 958139571, 1322822218, 1537002063,
   1747873779, 1955562222, 2024104815, 2227730452, 2361852424,
   2428436474, 2756734187, 3204031479, 3329325298]

/-- The SHA-256 initial hash value. -/
def sha256H0 : List Nat :=
  [1779033703, 3144134277, 1013904242, 2773480762,
   1359893119, 2600822924, 528734635, 1541459225]

/-- SHA-256 padding: append 0x80, zero bytes, and the 64-bit big-endian bit
length, reaching a multiple of 64 bytes. -/
def sha256Pad (msg : List Nat) : List Nat :=
  let len := msg.length
  let bitLen := 8 * len
  let zeros := (64 - ((len + 9) % 64)) % 64
  msg ++ [0x80] ++ List.replicate zeros 0 ++
    [(bitLen >>> 56) % 256, (bitLen >>> 48) % 256, (bitLen >>> 40) % 256, (bitLen >>> 32) % 256,
     (bitLen >>> 24) % 256, (bitLen >>> 16) % 256, (bitLen >>> 8) % 256, bitLen % 256]

/-- Split a byte list into 64-byte blocks. The first argument is fuel
(instantiated with the list length) so that the kernel can evaluate the
recursion. -/
def chunks64 : Nat → List Nat → List (List Nat)
  | _, [] => []
  | 0, _ :: _ => []
  | fuel + 1, b :: rest =>
    ((b :: rest).take 64) :: chunks64 fuel ((b :: rest).drop 64)

/-- The 64-byte blocks of a padded message. -/
def sha256Chunks (l : List Nat) : List (List Nat) := chunks64 l.length l

/-- Big-endian 32-bit words from bytes, four at a time. -/
def wordsOfBytes : List Nat → List Nat
  | b0 :: b1 :: b2 :: b3 :: rest =>
    (((b0 * 256 + b1) * 256 + b2) * 256 + b3) :: wordsOfBytes rest
  | _ => []

def smallSigma0 (x : Nat) : Nat := (rotr32 7 x) ^^^ (rotr32 18 x) ^^^ (x >>> 3)
def smallSigma1 (x : Nat) : Nat := (rotr32 17 x) ^^^ (rotr32 19 x) ^^^ (x >>> 10)
def bigSigma0 (x : Nat) : Nat := (rotr32 2 x) ^^^ (rotr32 13 x) ^^^ (rotr32 22 x)
def bigSigma1 (x : Nat) : Nat := (rotr32 6 x) ^^^ (rotr32 11 x) ^^^ (rotr32 25 x)

/-- Extend the 16 block words to the 64-entry message schedule. -/
def sha256Schedule (ws : List Nat) : Array Nat :=
  (List.range 48).foldl
    (fun w _ =>
      let i := w.size
      let x := w32 (smallSigma1 (w.getD (i - 2) 0) + w.getD (i - 7) 0 +
                    smallSigma0 (w.getD (i - 15) 0) + w.getD (i - 16) 0)
      w.push x)
    ws.toArray

/-- The eight SHA-256 working variables. -/
structure Sha256State where
  a : Nat
  b : Nat
  c : Nat
  d : Nat
  e : Nat
  f : Nat
  g : Nat
  h : Nat

/-- One SHA-256 compression round. -/
def sha256Round (w : Array Nat) (s : Sha256State) (i : Nat) : Sha256State :=
  let ch := (s.e &&& s.f) ^^^ ((4294967295 ^^^ s.e) &&& s.g)
  let maj := (s.a &&& s.b) ^^^ (s.a &&& s.c) ^^^ (s.b &&& s.c)
  let t1 := w32 (s.h + bigSigma1 s.e + ch + (sha256K.getD i 0) + w.getD i 0)
  let t2 := w32 (bigSigma0 s.a + maj)
  { a := w32 (t1 + t2), b := s.a, c := s.b, d := s.c,
    e := w32 (s.d + t1), f := s.e, g := s.f, h := s.g }

/-- Process one 64-byte block into the running hash value. -/
def sha256Block (hs : List Nat) (block : List Nat) : List Nat :=
  let w := sha256Schedule (wordsOfBytes block)
  let s0 : Sha256State :=
    { a := hs.getD 0 0, b := hs.getD 1 0, c := hs.getD 2 0, d := hs.getD 3 0,
      e := hs.getD 4 0, f := hs.getD 5 0, g := hs.getD 6 0, h := hs.getD 7 0 }
  let s := (List.range 64).foldl (sha256Round w) s0
  [w32 (hs.getD 0 0 + s.a), w32 (hs.getD 1 0 + s.b), w32 (hs.getD 2 0 + s.c), w32 (hs.getD 3 0 + s.d),
   w32 (hs.getD 4 0 + s.e), w32 (hs.getD 5 0 + s.f), w32 (hs.getD 6 0 + s.g), w32 (hs.getD 7 0 + s.h)]

/-- Big-endian bytes of a 32-bit word. -/
def bytesOfWord (x : Nat) : List Nat :=
  [(x >>> 24) % 256, (x >>> 16) % 256, (x >>> 8) % 256, x % 256]

/-- SHA-256 digest (32 bytes) of a byte list. -/
def sha256 (msg : List Nat) : List Nat :=
  ((sha256Chunks (sha256Pad msg)).foldl sha256Block sha256H0).flatMap bytesOfWord

/- ====================================================================
   Section 3: base64 and identifier derivation
   (services/manifest.ts: arrayBufferToBase64, hashAsset, hashToUuid)
   ==================================================================== -/

/-- The standard base64 alphabet. -/
def b64Alphabet : List Char :=
  "ABCDEFGHIJKLMNOPQRSTUVWXYZabcdefghijklmnopqrstuvwxyz0123456789+/".data

/-- Base64 encoding of a byte list, three bytes to four characters,
padded with = (models btoa over the binary string). -/
def b64Groups : List Nat → List Char
  | [] => []
  | [b0] =>
    [b64Alphabet.getD (b0 >>> 2) 'A', b64Alphabet.getD ((b0 &&& 3) <<< 4) 'A', '=', '=']
  | [b0, b1] =>
    [b64Alphabet.getD (b0 >>> 2) 'A', b64Alphabet.getD (((b0 &&& 3) <<< 4) ||| (b1 >>> 4)) 'A',
     b64Alphabet.getD ((b1 &&& 15) <<< 2) 'A', '=']
  | b0 :: b1 :: b2 :: rest =>
    b64Alphabet.getD (b0 >>> 2) 'A' ::
    b64Alphabet.getD (((b0 &&& 3) <<< 4) ||| (b1 >>> 4)) 'A' ::
    b64Alphabet.getD (((b1 &&& 15) <<< 2) ||| (b2 >>> 6)) 'A' ::
    b64Alphabet.getD (b2 &&& 63) 'A' :: b64Groups rest

/-- services/manifest.ts arrayBufferToBase64: base64 of raw bytes. -/
def arrayBufferToBase64 (bytes : List Nat) : String := String.mk (b64Groups bytes)

/-- services/manifest.ts hashAsset: SHA-256 then base64 made URL-safe
(replace + with -, / with _, strip trailing =). -/
def hashAsset (data : List Nat) : String :=
  let base64 := (arrayBufferToBase64 (sha256 data)).data
  let urlSafe := base64.map (fun ch => if ch == '+' then '-' else if ch == '/' then '_' else ch)
  String.mk ((urlSafe.reverse.dropWhile (fun ch => ch == '=')).reverse)

/-- A hexadecimal character, upper or lower case, as kept by the
case-insensitive regex replace in hashToUuid. -/
def isHexDigit (ch : Char) : Bool :=
  ('0' ≤ ch && ch ≤ '9') || ('a' ≤ ch && ch ≤ 'f') || ('A' ≤ ch && ch ≤ 'F')

/-- services/manifest.ts hashToUuid: keep the hex characters of the hash,
take 32, right-pad with 0, and insert dashes as 8-4-4-4-12. -/
def hashToUuid (hash : String) : String :=
  let hex0 := (hash.data.filter isHexDigit).take 32
  let hex := hex0 ++ List.replicate (32 - hex0.length) '0'
  String.mk (hex.take 8 ++ '-' :: ((hex.drop 8).take 4) ++ '-' :: ((hex.drop 12).take 4) ++
             '-' :: ((hex.drop 16).take 4) ++ '-' :: ((hex.drop 20).take 12))

/- ====================================================================
   Section 4: data model (db/schema: uploads and apps rows)
   ==================================================================== -/

/-- One row of the uploads table (schema of migrations 0000 plus the later
platform, signed_manifest and manifest_signature columns). Timestamps are
naturals; nullable columns are options. -/
structure Upload where
  id : String
  project : String
  version : String
  releaseChannel : String
  platform : String
  status : String
  r2Path : String
  metadataJson : Option String
  appJson : Option String
  assetsManifest : Option String
  updateId : Option String
  signedManifest : Option String
  manifestSignature : Option String
  gitBranch : Option String
  gitCommit : Option String
  size : Nat
  createdAt : Nat
  releasedAt : Option Nat
  updatedAt : Nat
deriving DecidableEq

/-- One row of the apps table. -/
structure App where
  id : String
  name : Option String
  privateKey : Option String
  certificate : Option String
  createdAt : Nat
  updatedAt : Nat
deriving DecidableEq

/-- JavaScript truthiness of a nullable string column: null and the empty
string are falsy. -/
def jsTruthy (o : Option String) : Bool :=
  match o with
  | some s => s != ""
  | none => false

/- ====================================================================
   Section 5: mutating operations on the uploads table
   (routes/utils.ts release and rollback, routes/uploads.ts PATCH,
   DELETE and the ingestion INSERT)
   ==================================================================== -/

/-- The demotion condition of POST /utils/release: same project, version
and release channel as the target, currently released, and not the target
itself. Platform is deliberately not part of the condition. -/
def isSibling (t : Upload) (uploadId : String) (u : Upload) : Bool :=
  u.project == t.project && u.version == t.version &&
  u.releaseChannel == t.releaseChannel && u.status == "released" && u.id != uploadId

/-- The demotion condition of POST /utils/rollback: as isSibling but
without the exclusion of the target row. -/
def isCurrentReleased (t : Upload) (u : Upload) : Bool :=
  u.project == t.project && u.version == t.version &&
  u.releaseChannel == t.releaseChannel && u.status == "released"

/-- UPDATE ... SET status = obsolete for one row, when the condition holds. -/
def demoteIf (cond : Upload → Bool) (now : Nat) (u : Upload) : Upload :=
  if cond u then { u with status := "obsolete", updatedAt := now } else u

/-- UPDATE ... SET status = released, released_at = now for the target row. -/
def promoteIfTarget (uploadId : String) (now : Nat) (u : Upload) : Upload :=
  if u.id == uploadId then
    { u with status := "released", releasedAt := some now, updatedAt := now }
  else u

/-- POST /utils/release. Returns the HTTP status and the resulting table.
An empty uploadId is falsy in the handler and yields 400; a missing row
yields 404; a target already released yields 400 with the table unchanged;
otherwise every released sibling is demoted to obsolete and the target is
promoted. -/
def releaseHandler (db : List Upload) (uploadId : String) (now : Nat) : Nat × List Upload :=
  if uploadId == "" then (400, db)
  else
    match db.find? (fun u => u.id == uploadId) with
    | none => (404, db)
    | some upload =>
      if upload.status == "released" then (400, db)
      else
        let afterDemote := db.map (demoteIf (isSibling upload uploadId) now)
        (200, afterDemote.map (promoteIfTarget uploadId now))

/-- POST /utils/rollback: demote every released row of the coordinate and
promote the target, with no status precondition on the target. -/
def rollbackHandler (db : List Upload) (uploadId : String) (now : Nat) : Nat × List Upload :=
  if uploadId == "" then (400, db)
  else
    match db.find? (fun u => u.id == uploadId) with
    | none => (404, db)
    | some upload =>
      let afterDemote := db.map (demoteIf (isCurrentReleased upload) now)
      (200, afterDemote.map (promoteIfTarget uploadId now))

/-- The Partial of the uploads row a PATCH /uploads/:id body may carry
(drizzle spreads the body over the SET clause). -/
structure PatchBody where
  id : Option String
  project : Option String
  version : Option String
  releaseChannel : Option String
  platform : Option String
  status : Option String
deriving DecidableEq

/-- Apply a PATCH body to one row: spread the body, set updated_at, and set
released_at only when the body releases a row that was not released. -/
def applyPatch (body : PatchBody) (existing : Upload) (now : Nat) (u : Upload) : Upload :=
  { u with
    id := body.id.getD u.id,
    project := body.project.getD u.project,
    version := body.version.getD u.version,
    releaseChannel := body.releaseChannel.getD u.releaseChannel,
    platform := body.platform.getD u.platform,
    status := body.status.getD u.status,
    updatedAt := now,
    releasedAt :=
      if body.status == some "released" && existing.status != "released" then some now
      else u.releasedAt }

/-- PATCH /uploads/:id. Reads the row, then updates it with the spread body.
No sibling is demoted. -/
def patchHandler (db : List Upload) (uploadId : String) (body : PatchBody) (now : Nat) :
    Nat × List Upload :=
  match db.find? (fun u => u.id == uploadId) with
  | none => (404, db)
  | some existing =>
    (200, db.map (fun u => if u.id == uploadId then applyPatch body existing now u else u))

/-- DELETE /uploads/:id: remove the row (the R2 objects under its prefix
are also deleted; only the table state matters here). -/
def deleteHandler (db : List Upload) (uploadId : String) : Nat × List Upload :=
  match db.find? (fun u => u.id == uploadId) with
  | none => (404, db)
  | some _ => (200, db.filter (fun u => !(u.id == uploadId)))

/-- INSERT of a new uploads row; the primary key constraint rejects a
duplicate id, leaving the table unchanged. -/
def insertUpload (db : List Upload) (u : Upload) : List Upload :=
  if db.any (fun v => v.id == u.id) then db else db ++ [u]

/- ====================================================================
   Section 6: reachable table states and the single-live invariant
   ==================================================================== -/

/-- Membership of a released row in one serving coordinate. -/
def releasedInCoord (p v c pl : String) (u : Upload) : Bool :=
  u.project == p && u.version == v && u.releaseChannel == c &&
  u.platform == pl && u.status == "released"

/-- The single-live invariant P1: at most one released row per
(project, version, release channel, platform) coordinate. -/
def SingleLive (db : List Upload) : Prop :=
  ∀ p v c pl : String, db.countP (releasedInCoord p v c pl) ≤ 1

/-- Primary-key uniqueness of the uploads table. -/
def NodupIds (db : List Upload) : Prop := (db.map Upload.id).Nodup

/-- Table states reachable from the empty table through the servers
mutating operations. Every ingestion insert carries status ready
(routes/uploads.ts POST /upload). The Boolean index records whether
PATCH /uploads/:id is among the allowed operations. -/
inductive ReachableDb : Bool → List Upload → Prop where
  | init (allowPatch : Bool) : ReachableDb allowPatch []
  | insert {allowPatch : Bool} {db : List Upload} (u : Upload) :
      ReachableDb allowPatch db → u.status = "ready" →
      ReachableDb allowPatch (insertUpload db u)
  | release {allowPatch : Bool} {db : List Upload} (uploadId : String) (now : Nat) :
      ReachableDb allowPatch db →
      ReachableDb allowPatch (releaseHandler db uploadId now).2
  | rollback {allowPatch : Bool} {db : List Upload} (uploadId : String) (now : Nat) :
      ReachableDb allowPatch db →
      ReachableDb allowPatch (rollbackHandler db uploadId now).2
  | patch {db : List Upload} (uploadId : String) (body : PatchBody) (now : Nat) :
      ReachableDb true db →
      ReachableDb true (patchHandler db uploadId body now).2
  | delete {allowPatch : Bool} {db : List Upload} (uploadId : String) :
      ReachableDb allowPatch db →
      ReachableDb allowPatch (deleteHandler db uploadId).2
/- ====================================================================
   Section 7: preservation of the single-live invariant
   ==================================================================== -/

theorem demoteIf_id (cond : Upload → Bool) (now : Nat) (u : Upload) :
    (demoteIf cond now u).id = u.id := by
  unfold demoteIf; split <;> rfl

theorem demoteIf_project (cond : Upload → Bool) (now : Nat) (u : Upload) :
    (demoteIf cond now u).project = u.project := by
  unfold demoteIf; split <;> rfl

theorem demoteIf_version (cond : Upload → Bool) (now : Nat) (u : Upload) :
    (demoteIf cond now u).version = u.version := by
  unfold demoteIf; split <;> rfl

theorem demoteIf_releaseChannel (cond : Upload → Bool) (now : Nat) (u : Upload) :
    (demoteIf cond now u).releaseChannel = u.releaseChannel := by
  unfold demoteIf; split <;> rfl

theorem promoteIfTarget_id (uploadId : String) (now : Nat) (u : Upload) :
    (promoteIfTarget uploadId now u).id = u.id := by
  unfold promoteIfTarget; split <;> rfl

theorem promoteIfTarget_project (uploadId : String) (now : Nat) (u : Upload) :
    (promoteIfTarget uploadId now u).project = u.project := by
  unfold promoteIfTarget; split <;> rfl

theorem promoteIfTarget_version (uploadId : String) (now : Nat) (u : Upload) :
    (promoteIfTarget uploadId now u).version = u.version := by
  unfold promoteIfTarget; split <;> rfl

theorem promoteIfTarget_releaseChannel (uploadId : String) (now : Nat) (u : Upload) :
    (promoteIfTarget uploadId now u).releaseChannel = u.releaseChannel := by
  unfold promoteIfTarget; split <;> rfl

theorem promoteIfTarget_skip (uploadId : String) (now : Nat) (u : Upload)
    (h : u.id ≠ uploadId) : promoteIfTarget uploadId now u = u := by
  unfold promoteIfTarget; rw [if_neg]; simp [h]

theorem releasedInCoord_iff (p v c pl : String) (u : Upload) :
    releasedInCoord p v c pl u = true ↔
      u.project = p ∧ u.version = v ∧ u.releaseChannel = c ∧ u.platform = pl ∧
      u.status = "released" := by
  simp [releasedInCoord, Bool.and_eq_true, and_assoc]

theorem isSibling_iff (t : Upload) (i : String) (u : Upload) :
    isSibling t i u = true ↔
      u.project = t.project ∧ u.version = t.version ∧ u.releaseChannel = t.releaseChannel ∧
      u.status = "released" ∧ u.id ≠ i := by
  simp [isSibling, Bool.and_eq_true, and_assoc]

theorem isCurrentReleased_iff (t : Upload) (u : Upload) :
    isCurrentReleased t u = true ↔
      u.project = t.project ∧ u.version = t.version ∧ u.releaseChannel = t.releaseChannel ∧
      u.status = "released" := by
  simp [isCurrentReleased, Bool.and_eq_true, and_assoc]

theorem countP_id_le_one (db : List Upload) (i : String) (h : NodupIds db) :
    db.countP (fun u => u.id == i) ≤ 1 := by
  induction db with
  | nil => simp [List.countP_nil]
  | cons u rest ih =>
    have h' : u.id ∉ rest.map Upload.id ∧ NodupIds rest := by
      simpa [NodupIds, List.nodup_cons] using h
    rw [List.countP_cons]
    by_cases hui : u.id = i
    · have hzero : rest.countP (fun w => w.id == i) = 0 := by
        rw [List.countP_eq_zero]
        intro w hw hwi
        exact h'.1 (by
          rw [hui, ← beq_iff_eq.mp hwi]
          exact List.mem_map_of_mem Upload.id hw)
      simp [hzero, hui]
    · have : (u.id == i) = false := by simp [hui]
      simpa [this] using ih h'.2

/-- The demote-then-promote table rewrite keeps every primary key. -/
theorem mapIds_promote_demote (db : List Upload) (cond : Upload → Bool)
    (uploadId : String) (now : Nat) :
    ((db.map (demoteIf cond now)).map (promoteIfTarget uploadId now)).map Upload.id =
      db.map Upload.id := by
  rw [List.map_map, List.map_map]
  exact List.map_congr_left (fun u _ => by
    simp [Function.comp, promoteIfTarget_id, demoteIf_id])

/-- Core counting argument: after demoting the released rows of the target
coordinate and promoting the target, every coordinate again holds at most
one released row. The demotion condition is either isSibling (release) or
isCurrentReleased (rollback); both imply the three coordinate equalities
and released status, and both hold whenever those do and the row is not
the target. -/
theorem promote_demote_singleLive (db : List Upload) (t : Upload) (uploadId : String)
    (now : Nat) (cond : Upload → Bool)
    (hn : NodupIds db) (hs : SingleLive db)
    (ht_mem : t ∈ db) (ht_id : t.id = uploadId)
    (hcond_intro : ∀ u, u.project = t.project → u.version = t.version →
      u.releaseChannel = t.releaseChannel → u.status = "released" → u.id ≠ uploadId →
      cond u = true) :
    SingleLive ((db.map (demoteIf cond now)).map (promoteIfTarget uploadId now)) := by
  intro p v c pl
  rw [List.map_map, List.countP_map]
  have hgf_skip : ∀ u : Upload, u.id ≠ uploadId →
      (promoteIfTarget uploadId now (demoteIf cond now u)) = demoteIf cond now u := by
    intro u hid
    exact promoteIfTarget_skip _ _ _ (by rw [demoteIf_id]; exact hid)
  by_cases hpvc : p = t.project ∧ v = t.version ∧ c = t.releaseChannel
  · refine le_trans (List.countP_mono_left ?_) (countP_id_le_one db uploadId hn)
    intro u hu hrel
    simp only [Function.comp] at hrel
    by_cases hid : u.id = uploadId
    · simp [hid]
    · exfalso
      rw [hgf_skip u hid] at hrel
      by_cases hc : cond u = true
      · unfold demoteIf at hrel
        rw [if_pos hc] at hrel
        have hbad := ((releasedInCoord_iff p v c pl _).mp hrel).2.2.2.2
        simp at hbad
      · unfold demoteIf at hrel
        rw [if_neg hc] at hrel
        obtain ⟨h1, h2, h3, _, h5⟩ := (releasedInCoord_iff p v c pl u).mp hrel
        exact hc (hcond_intro u (h1.trans hpvc.1) (h2.trans hpvc.2.1)
          (h3.trans hpvc.2.2) h5 hid)
  · refine le_trans (List.countP_mono_left ?_) (hs p v c pl)
    intro u hu hrel
    simp only [Function.comp] at hrel
    by_cases hid : u.id = uploadId
    · exfalso
      have hut : u = t := List.inj_on_of_nodup_map hn hu ht_mem (by rw [hid, ht_id])
      obtain ⟨h1, h2, h3, _, _⟩ := (releasedInCoord_iff p v c pl _).mp hrel
      rw [promoteIfTarget_project, demoteIf_project, hut] at h1
      rw [promoteIfTarget_version, demoteIf_version, hut] at h2
      rw [promoteIfTarget_releaseChannel, demoteIf_releaseChannel, hut] at h3
      exact hpvc ⟨h1.symm, h2.symm, h3.symm⟩
    · rw [hgf_skip u hid] at hrel
      by_cases hc : cond u = true
      · exfalso
        unfold demoteIf at hrel
        rw [if_pos hc] at hrel
        have hbad := ((releasedInCoord_iff p v c pl _).mp hrel).2.2.2.2
        simp at hbad
      · unfold demoteIf at hrel
        rw [if_neg hc] at hrel
        exact hrel

theorem releaseHandler_preserves (db : List Upload) (uploadId : String) (now : Nat)
    (hn : NodupIds db) (hs : SingleLive db) :
    NodupIds (releaseHandler db uploadId now).2 ∧ SingleLive (releaseHandler db uploadId now).2 := by
  unfold releaseHandler
  split
  · exact ⟨hn, hs⟩
  · cases hfind : db.find? (fun u => u.id == uploadId) with
    | none => simp only [hfind]; exact ⟨hn, hs⟩
    | some t =>
      simp only [hfind]
      split
      · exact ⟨hn, hs⟩
      · constructor
        · show NodupIds _
          unfold NodupIds
          rw [mapIds_promote_demote]
          exact hn
        · refine promote_demote_singleLive db t uploadId now _ hn hs
            (List.mem_of_find?_eq_some hfind) (by simpa using List.find?_some hfind) ?_
          intro u h1 h2 h3 h4 h5
          exact (isSibling_iff t uploadId u).mpr ⟨h1, h2, h3, h4, h5⟩

theorem rollbackHandler_preserves (db : List Upload) (uploadId : String) (now : Nat)
    (hn : NodupIds db) (hs : SingleLive db) :
    NodupIds (rollbackHandler db uploadId now).2 ∧ SingleLive (rollbackHandler db uploadId now).2 := by
  unfold rollbackHandler
  split
  · exact ⟨hn, hs⟩
  · cases hfind : db.find? (fun u => u.id == uploadId) with
    | none => simp only [hfind]; exact ⟨hn, hs⟩
    | some t =>
      simp only [hfind]
      constructor
      · show NodupIds _
        unfold NodupIds
        rw [mapIds_promote_demote]
        exact hn
      · refine promote_demote_singleLive db t uploadId now _ hn hs
          (List.mem_of_find?_eq_some hfind) (by simpa using List.find?_some hfind) ?_
        intro u h1 h2 h3 h4 _
        exact (isCurrentReleased_iff t u).mpr ⟨h1, h2, h3, h4⟩

theorem insertUpload_preserves (db : List Upload) (u : Upload)
    (hn : NodupIds db) (hs : SingleLive db) (hr : u.status = "ready") :
    NodupIds (insertUpload db u) ∧ SingleLive (insertUpload db u) := by
  unfold insertUpload
  split
  · exact ⟨hn, hs⟩
  · rename_i hany
    constructor
    · unfold NodupIds
      rw [List.map_append, List.nodup_append]
      refine ⟨hn, by simp, ?_⟩
      intro a ha hb
      simp at hb
      obtain ⟨w, hw, hwa⟩ := List.mem_map.mp ha
      rw [List.any_eq_true] at hany
      exact hany ⟨w, hw, by simp [hwa, hb]⟩
    · intro p v c pl
      rw [List.countP_append]
      have hzero : List.countP (releasedInCoord p v c pl) [u] = 0 := by
        simp [List.countP_cons, List.countP_nil, releasedInCoord, hr]
      rw [hzero]
      simpa using hs p v c pl

theorem deleteHandler_preserves (db : List Upload) (uploadId : String)
    (hn : NodupIds db) (hs : SingleLive db) :
    NodupIds (deleteHandler db uploadId).2 ∧ SingleLive (deleteHandler db uploadId).2 := by
  unfold deleteHandler
  cases hfind : db.find? (fun u => u.id == uploadId) with
  | none => simp only [hfind]; exact ⟨hn, hs⟩
  | some t =>
    simp only [hfind]
    have hsub : (db.filter (fun u => !(u.id == uploadId))).Sublist db := List.filter_sublist db
    constructor
    · exact List.Nodup.sublist (List.Sublist.map Upload.id hsub) hn
    · intro p v c pl
      exact le_trans (List.Sublist.countP_le _ hsub) (hs p v c pl)

theorem reachable_noPatch_invariants (b : Bool) (db : List Upload)
    (h : ReachableDb b db) (hb : b = false) : NodupIds db ∧ SingleLive db := by
  induction h with
  | init => exact ⟨by simp [NodupIds], by intro p v c pl; simp [List.countP_nil]⟩
  | insert u _ hr ih =>
    obtain ⟨hn, hs⟩ := ih hb
    exact insertUpload_preserves _ u hn hs hr
  | release uploadId now _ ih =>
    obtain ⟨hn, hs⟩ := ih hb
    exact releaseHandler_preserves _ uploadId now hn hs
  | rollback uploadId now _ ih =>
    obtain ⟨hn, hs⟩ := ih hb
    exact rollbackHandler_preserves _ uploadId now hn hs
  | patch uploadId body now _ _ => exact absurd hb (by simp)
  | delete uploadId _ ih =>
    obtain ⟨hn, hs⟩ := ih hb
    exact deleteHandler_preserves _ uploadId hn hs
/- ====================================================================
   Section 8: claims C1 and C6 (state machine)
   ==================================================================== -/

/-- A fresh ingested row (status ready) for concrete scenarios. -/
def mkReadyUpload (i : String) : Upload :=
  { id := i, project := "p", version := "1.0.0", releaseChannel := "production",
    platform := "all", status := "ready", r2Path := "updates/p/1.0.0/" ++ i,
    metadataJson := none, appJson := none, assetsManifest := none,
    updateId := some i, signedManifest := none, manifestSignature := none,
    gitBranch := none, gitCommit := none, size := 0, createdAt := 0,
    releasedAt := none, updatedAt := 0 }

/-- A PATCH body that sets status to released and nothing else. -/
def patchReleaseBody : PatchBody :=
  { id := none, project := none, version := none, releaseChannel := none,
    platform := none, status := some "released" }

/-- Two rows of one coordinate, both driven to released through
PATCH /uploads/:id, which never demotes siblings. -/
def c1BadDb : List Upload :=
  (patchHandler
    (patchHandler
      (insertUpload (insertUpload [] (mkReadyUpload "u1")) (mkReadyUpload "u2"))
      "u1" patchReleaseBody 1).2
    "u2" patchReleaseBody 2).2

/-- C1 as stated is false: the operation set includes PATCH /uploads/:id,
and PATCH applies its body directly (uploads.ts line 119) without demoting
released siblings, so inserting two rows of one coordinate and patching
both to status released reaches a state with two released rows for
(p, 1.0.0, production, all). -/
theorem claim_C1_counterexample : ReachableDb true c1BadDb ∧ ¬ SingleLive c1BadDb := by
  constructor
  · exact ReachableDb.patch "u2" patchReleaseBody 2
      (ReachableDb.patch "u1" patchReleaseBody 1
        (ReachableDb.insert (mkReadyUpload "u2")
          (ReachableDb.insert (mkReadyUpload "u1") (ReachableDb.init true) rfl) rfl))
  · intro h
    have h2 := h "p" "1.0.0" "production" "all"
    revert h2
    decide

/-- C1 amended: in every table state reachable from the empty table by
ingestion inserts, POST /utils/release, POST /utils/rollback and delete
(PATCH /uploads/:id excluded), every (project, version, release channel,
platform) coordinate holds at most one released row. -/
theorem claim_C1_amended (db : List Upload) (h : ReachableDb false db) : SingleLive db :=
  (reachable_noPatch_invariants false db h rfl).2

/-- Witness: the invariant theorem applied to a concrete insert-and-release
history. -/
theorem claim_C1_witness :
    SingleLive (releaseHandler (insertUpload [] (mkReadyUpload "u1")) "u1" 5).2 :=
  claim_C1_amended _
    (ReachableDb.release "u1" 5
      (ReachableDb.insert (mkReadyUpload "u1") (ReachableDb.init false) rfl))

/-- The table after releasing upload u1. -/
def c6Db : List Upload := (releaseHandler (insertUpload [] (mkReadyUpload "u1")) "u1" 0).2

/-- The released row held by c6Db. -/
def c6ReleasedRow : Upload :=
  { mkReadyUpload "u1" with status := "released", releasedAt := some 0, updatedAt := 0 }

/-- C6 as stated is false in its status code: releasing an
already-released upload answers HTTP 400 (utils.ts line 49), not the
409 the claim requires; the table is indeed left unchanged. -/
theorem claim_C6_counterexample :
    (releaseHandler c6Db "u1" 1).1 = 400 ∧ (releaseHandler c6Db "u1" 1).1 ≠ 409 ∧
    (releaseHandler c6Db "u1" 1).2 = c6Db := by
  decide

/-- C6 amended: releasing an upload whose row is already released returns
HTTP 400 (error: Upload is already released) and leaves every row of the
table unchanged. -/
theorem claim_C6_amended (db : List Upload) (uploadId : String) (now : Nat) (t : Upload)
    (hfind : db.find? (fun u => u.id == uploadId) = some t)
    (hrel : t.status = "released") :
    releaseHandler db uploadId now = (400, db) := by
  unfold releaseHandler
  split
  · rfl
  · rw [hfind]
    simp [hrel]

/-- Witness: the amended C6 theorem applied to the concrete released table. -/
theorem claim_C6_witness : releaseHandler c6Db "u1" 1 = (400, c6Db) :=
  claim_C6_amended c6Db "u1" 1 c6ReleasedRow (by decide) (by decide)
/- ====================================================================
   Section 9: claim C2 (servable-upload lookup, modelled from the spec)
   ==================================================================== -/

/-- Modelled from the spec: the candidate filter of find_servable_upload.
The platform-aware manifest lookup of the current GET /api/manifest route
is not among the provided sources (only its platform column migration and
its callee createMultipartResponse are); spec 4.3 describes the query as
the released rows of the exact coordinate whose platform column matches
the request or is all. -/
def servableCandidate (project version channel platform : String) (u : Upload) : Bool :=
  u.project == project && u.version == version && u.releaseChannel == channel &&
  u.status == "released" && (u.platform == platform || u.platform == "all")

/-- Preference score of a candidate: an exact platform match beats all. -/
def exactScore (platform : String) (u : Upload) : Nat :=
  if u.platform == platform then 1 else 0

/-- The released_at tie-break value (null sorts oldest). -/
def releasedAtVal (u : Upload) : Nat := u.releasedAt.getD 0

/-- Strict preference between candidates: higher platform score first,
then the more recent released_at. -/
def beatsB (platform : String) (a b : Upload) : Bool :=
  decide (exactScore platform b < exactScore platform a) ||
  (decide (exactScore platform a = exactScore platform b) &&
   decide (releasedAtVal b < releasedAtVal a))

/-- Non-strict preference order used to state maximality. -/
def KeyLE (platform : String) (a b : Upload) : Prop :=
  exactScore platform a < exactScore platform b ∨
  (exactScore platform a = exactScore platform b ∧ releasedAtVal a ≤ releasedAtVal b)

/-- One fold step keeping the preferred candidate (first wins on ties). -/
def pickBest (platform : String) (acc : Option Upload) (u : Upload) : Option Upload :=
  match acc with
  | none => some u
  | some b => if beatsB platform u b then some u else some b

/-- Modelled from the spec: find_servable_upload, section 4.3 — the unique
released row for the exact coordinate, preferring a row with matching
platform over a row with platform = all, breaking residual ties by the
most recent released_at. -/
def findServableUpload (db : List Upload) (project version channel platform : String) :
    Option Upload :=
  (db.filter (servableCandidate project version channel platform)).foldl (pickBest platform) none

theorem servableCandidate_iff (project version channel platform : String) (u : Upload) :
    servableCandidate project version channel platform u = true ↔
      u.project = project ∧ u.version = version ∧ u.releaseChannel = channel ∧
      u.status = "released" ∧ (u.platform = platform ∨ u.platform = "all") := by
  simp [servableCandidate, Bool.and_eq_true, Bool.or_eq_true, and_assoc]

theorem beatsB_false_iff (platform : String) (a b : Upload) :
    beatsB platform a b = false ↔ KeyLE platform a b := by
  simp only [beatsB, KeyLE, Bool.or_eq_false_iff, Bool.and_eq_false_iff,
    decide_eq_false_iff_not, Nat.not_lt]
  constructor
  · intro ⟨h1, h2⟩
    rcases Nat.lt_or_ge (exactScore platform a) (exactScore platform b) with hlt | hge
    · exact Or.inl hlt
    · have heq : exactScore platform a = exactScore platform b := Nat.le_antisymm h1 hge
      refine Or.inr ⟨heq, ?_⟩
      rcases h2 with h2 | h2
      · exact absurd heq h2
      · exact h2
  · intro h
    rcases h with hlt | ⟨heq, hle⟩
    · exact ⟨Nat.le_of_lt hlt, Or.inl (Nat.ne_of_lt hlt)⟩
    · exact ⟨Nat.le_of_eq heq, Or.inr hle⟩

theorem beatsB_true_keyLE (platform : String) (a b : Upload)
    (h : beatsB platform a b = true) : KeyLE platform b a := by
  simp only [beatsB, Bool.or_eq_true, Bool.and_eq_true, decide_eq_true_eq] at h
  rcases h with h | ⟨heq, hlt⟩
  · exact Or.inl h
  · exact Or.inr ⟨heq.symm, Nat.le_of_lt hlt⟩

theorem keyLE_trans (platform : String) (a b c : Upload)
    (h1 : KeyLE platform a b) (h2 : KeyLE platform b c) : KeyLE platform a c := by
  rcases h1 with h1 | ⟨e1, r1⟩ <;> rcases h2 with h2 | ⟨e2, r2⟩
  · exact Or.inl (Nat.lt_trans h1 h2)
  · exact Or.inl (e2 ▸ h1)
  · exact Or.inl (e1 ▸ h2)
  · exact Or.inr ⟨e1.trans e2, Nat.le_trans r1 r2⟩

theorem foldl_pickBest_some (platform : String) (l : List Upload) :
    ∀ (b c : Upload), l.foldl (pickBest platform) (some b) = some c →
      (c = b ∨ c ∈ l) ∧ KeyLE platform b c ∧ ∀ v ∈ l, KeyLE platform v c := by
  induction l with
  | nil =>
    intro b c h
    simp only [List.foldl_nil, Option.some_inj] at h
    exact ⟨Or.inl h.symm, h ▸ Or.inr ⟨rfl, Nat.le_refl _⟩, by simp⟩
  | cons u rest ih =>
    intro b c h
    simp only [List.foldl_cons] at h
    by_cases hb : beatsB platform u b = true
    · have hstep : pickBest platform (some b) u = some u := by
        simp [pickBest, hb]
      rw [hstep] at h
      obtain ⟨hmem, hle, hall⟩ := ih u c h
      have hbu : KeyLE platform b u := beatsB_true_keyLE platform u b hb
      refine ⟨?_, keyLE_trans platform b u c hbu hle, ?_⟩
      · rcases hmem with h1 | h1
        · exact Or.inr (h1 ▸ List.mem_cons_self u rest)
        · exact Or.inr (List.mem_cons_of_mem u h1)
      · intro v hv
        rcases List.mem_cons.mp hv with h1 | h1
        · exact h1 ▸ hle
        · exact hall v h1
    · have hstep : pickBest platform (some b) u = some b := by
        simp [pickBest, hb]
      rw [hstep] at h
      obtain ⟨hmem, hle, hall⟩ := ih b c h
      refine ⟨?_, hle, ?_⟩
      · rcases hmem with h1 | h1
        · exact Or.inl h1
        · exact Or.inr (List.mem_cons_of_mem u h1)
      · intro v hv
        rcases List.mem_cons.mp hv with h1 | h1
        · have hub : KeyLE platform u b :=
            (beatsB_false_iff platform u b).mp (Bool.eq_false_iff.mpr hb)
          exact h1 ▸ keyLE_trans platform u b c hub hle
        · exact hall v h1

theorem foldl_pickBest_isSome (platform : String) (l : List Upload) :
    ∀ b : Upload, (l.foldl (pickBest platform) (some b)).isSome = true := by
  induction l with
  | nil => intro b; rfl
  | cons u rest ih =>
    intro b
    simp only [List.foldl_cons]
    by_cases hb : beatsB platform u b = true
    · rw [show pickBest platform (some b) u = some u by simp [pickBest, hb]]
      exact ih u
    · rw [show pickBest platform (some b) u = some b by simp [pickBest, hb]]
      exact ih b

/-- The selected row is a candidate and is maximal for the preference
order among all candidates. -/
theorem findServableUpload_spec (db : List Upload) (project version channel platform : String)
    (u : Upload) (h : findServableUpload db project version channel platform = some u) :
    u ∈ db ∧ servableCandidate project version channel platform u = true ∧
    ∀ w ∈ db, servableCandidate project version channel platform w = true →
      KeyLE platform w u := by
  unfold findServableUpload at h
  cases hf : db.filter (servableCandidate project version channel platform) with
  | nil => rw [hf] at h; simp at h
  | cons x rest =>
    rw [hf] at h
    simp only [List.foldl_cons, pickBest] at h
    obtain ⟨hmem, _, hall⟩ := foldl_pickBest_some platform rest x u h
    have humem : u ∈ db.filter (servableCandidate project version channel platform) := by
      rw [hf]
      rcases hmem with h1 | h1
      · exact h1 ▸ List.mem_cons_self x rest
      · exact List.mem_cons_of_mem x h1
    refine ⟨(List.mem_filter.mp humem).1, (List.mem_filter.mp humem).2, ?_⟩
    intro w hw hcand
    have hwmem : w ∈ db.filter (servableCandidate project version channel platform) :=
      List.mem_filter.mpr ⟨hw, hcand⟩
    rw [hf] at hwmem
    rcases List.mem_cons.mp hwmem with h1 | h1
    · subst h1
      rcases hmem with h2 | h2
      · exact h2 ▸ Or.inr ⟨rfl, Nat.le_refl _⟩
      · obtain ⟨_, hle, _⟩ := foldl_pickBest_some platform rest w u h
        exact hle
    · exact hall w h1

/-- C2: the servable-upload lookup (modelled from the spec, section 4.3)
returns a released row of the exact coordinate whose platform column is
the requested platform or all; a row with the exact platform is preferred
over a platform = all row, any residual tie goes to the most recent
released_at, and the lookup succeeds whenever a candidate exists. -/
theorem claim_C2 :
    (∀ (db : List Upload) (project version channel platform : String) (u : Upload),
      findServableUpload db project version channel platform = some u →
      (u ∈ db ∧ u.project = project ∧ u.version = version ∧ u.releaseChannel = channel ∧
       u.status = "released" ∧ (u.platform = platform ∨ u.platform = "all")) ∧
      (∀ w ∈ db, servableCandidate project version channel platform w = true →
        w.platform = platform → u.platform = platform) ∧
      (∀ w ∈ db, servableCandidate project version channel platform w = true →
        exactScore platform w = exactScore platform u →
        releasedAtVal w ≤ releasedAtVal u)) ∧
    (∀ (db : List Upload) (project version channel platform : String),
      (∃ w ∈ db, servableCandidate project version channel platform w = true) →
      (findServableUpload db project version channel platform).isSome = true) := by
  constructor
  · intro db project version channel platform u h
    obtain ⟨hmem, hcand, hmax⟩ := findServableUpload_spec db project version channel platform u h
    obtain ⟨h1, h2, h3, h4, h5⟩ := (servableCandidate_iff project version channel platform u).mp hcand
    refine ⟨⟨hmem, h1, h2, h3, h4, h5⟩, ?_, ?_⟩
    · intro w hw hwc hwp
      have hk := hmax w hw hwc
      have hsw : exactScore platform w = 1 := by simp [exactScore, hwp]
      rcases hk with hk | ⟨hk, _⟩
      · have hle : exactScore platform u ≤ 1 := by
          unfold exactScore; split <;> simp
        omega
      · have : exactScore platform u = 1 := by omega
        unfold exactScore at this
        by_cases hup : u.platform == platform
        · exact beq_iff_eq.mp hup
        · rw [if_neg hup] at this; omega
    · intro w hw hwc heq
      have hk := hmax w hw hwc
      rcases hk with hk | ⟨_, hk⟩
      · omega
      · exact hk
  · intro db project version channel platform ⟨w, hw, hwc⟩
    unfold findServableUpload
    cases hf : db.filter (servableCandidate project version channel platform) with
    | nil =>
      have : w ∈ db.filter (servableCandidate project version channel platform) :=
        List.mem_filter.mpr ⟨hw, hwc⟩
      rw [hf] at this
      simp at this
    | cons x rest =>
      simp only [List.foldl_cons, pickBest]
      exact foldl_pickBest_isSome platform rest x

/-- The platform = all released row of the C2 witness table. -/
def c2AllRow : Upload :=
  { mkReadyUpload "a1" with status := "released", releasedAt := some 9 }

/-- The ios released row of the C2 witness table. -/
def c2IosRow : Upload :=
  { mkReadyUpload "i1" with platform := "ios", status := "released", releasedAt := some 3 }

/-- Witness for C2 on a concrete table: the exact ios row is picked over a
newer platform = all row, and its platform is the requested one. -/
theorem claim_C2_witness :
    findServableUpload [c2AllRow, c2IosRow] "p" "1.0.0" "production" "ios" = some c2IosRow ∧
    c2IosRow.platform = "ios" := by
  constructor
  · decide
  · have h := claim_C2.1 [c2AllRow, c2IosRow] "p" "1.0.0" "production" "ios" c2IosRow (by decide)
    exact h.2.1 c2IosRow (by decide) (by decide) (by decide)
/- ====================================================================
   Section 10: multipart encoding (services/manifest.ts
   createMultipartResponse) and a parser extracting the manifest part
   ==================================================================== -/

/-- A composed HTTP response: flat body text plus header pairs. -/
structure MultipartResponse where
  body : String
  headers : List (String × String)
deriving DecidableEq

/-- services/manifest.ts createMultipartResponse. The manifestJson argument
stands for manifestString when the caller passes a pre-stringified manifest
and for JSON.stringify(manifest) otherwise; extensionsJson stands for
JSON.stringify(extensions). The boundary is a parameter because the source
draws it from crypto.randomUUID(). The signature is included only when
truthy, exactly as the if (signature) checks in the source. -/
def createMultipartResponse (manifestJson extensionsJson : String)
    (signature : Option String) (protocolVersion boundary : String) : MultipartResponse :=
  { body :=
      "--" ++ boundary ++ "\r\n" ++
      "Content-Type: application/json; charset=utf-8\r\n" ++
      "Content-Disposition: form-data; name=\"manifest\"\r\n" ++
      (if jsTruthy signature then "expo-signature: " ++ signature.getD "" ++ "\r\n" else "") ++
      "\r\n" ++
      manifestJson ++ "\r\n" ++
      "--" ++ boundary ++ "\r\n" ++
      "Content-Type: application/json\r\n" ++
      "Content-Disposition: form-data; name=\"extensions\"\r\n" ++
      "\r\n" ++
      extensionsJson ++ "\r\n" ++
      "--" ++ boundary ++ "--\r\n",
    headers :=
      [("Content-Type", "multipart/mixed; boundary=" ++ boundary),
       ("expo-protocol-version", protocolVersion),
       ("expo-sfv-version", "0"),
       ("Cache-Control", "private, max-age=0")] ++
      (if jsTruthy signature then [("expo-signature", signature.getD "")] else []) }

/-- Whether the pattern occurs as a contiguous sublist. -/
def containsSub (pat : List Char) : List Char → Bool
  | [] => pat.isEmpty
  | c :: rest => pat.isPrefixOf (c :: rest) || containsSub pat rest

/-- Split at the first occurrence of the pattern: the part before it and
the part after it. -/
def splitFirstSub (pat : List Char) : List Char → Option (List Char × List Char)
  | [] => none
  | c :: rest =>
    if pat.isPrefixOf (c :: rest) then some ([], (c :: rest).drop pat.length)
    else
      match splitFirstSub pat rest with
      | some (pre, post) => some (c :: pre, post)
      | none => none

/-- The text after the first occurrence of the pattern. -/
def afterFirst (pat l : List Char) : Option (List Char) :=
  (splitFirstSub pat l).map (fun pr => pr.2)

/-- The text before the first occurrence of the pattern. -/
def beforeFirst (pat l : List Char) : Option (List Char) :=
  (splitFirstSub pat l).map (fun pr => pr.1)

/-- The manifest part of a multipart body: the text between the first blank
line and the next boundary marker. -/
def extractManifestPart (boundary body : String) : Option String :=
  ((afterFirst ("\r\n\r\n").data body.data).bind
    (beforeFirst (("\r\n--" ++ boundary)).data)).map String.mk

theorem splitFirstSub_append (pat : List Char) (xs : List Char) (ys : List Char)
    (hne : pat ≠ [])
    (hno : containsSub pat (xs ++ pat.take (pat.length - 1)) = false) :
    splitFirstSub pat (xs ++ (pat ++ ys)) = some (xs, ys) := by
  induction xs with
  | nil =>
    rw [List.nil_append]
    cases hp : pat with
    | nil => exact absurd hp hne
    | cons p ps =>
      subst hp
      rw [List.cons_append]
      simp only [splitFirstSub]
      have hpre : (p :: ps).isPrefixOf (p :: (ps ++ ys)) = true := by
        rw [← List.cons_append]
        exact List.isPrefixOf_iff_prefix.mpr ⟨ys, rfl⟩
      rw [if_pos hpre, ← List.cons_append, List.drop_left]
  | cons x xs' ih =>
    have hnotpre : ¬ pat.isPrefixOf (x :: (xs' ++ (pat ++ ys))) = true := by
      intro hpre
      have h1 : pat <+: (x :: xs') ++ (pat ++ ys) := by
        rw [List.cons_append]
        exact List.isPrefixOf_iff_prefix.mp hpre
      have h2 : ((x :: xs') ++ pat.take (pat.length - 1)) ++ (pat.drop (pat.length - 1) ++ ys) =
          (x :: xs') ++ (pat ++ ys) := by
        rw [List.append_assoc, ← List.append_assoc (pat.take (pat.length - 1)),
          List.take_append_drop]
      rw [← h2] at h1
      have hlen : pat.length ≤ ((x :: xs') ++ pat.take (pat.length - 1)).length := by
        have hk : 1 ≤ pat.length := by
          cases pat with
          | nil => exact absurd rfl hne
          | cons q qs => simp
        rw [List.length_append, List.length_take, List.length_cons]
        omega
      have heq := List.prefix_iff_eq_take.mp h1
      rw [List.take_append_eq_append_take, Nat.sub_eq_zero_of_le hlen, List.take_zero,
        List.append_nil] at heq
      have hpre3 : pat <+: (x :: xs') ++ pat.take (pat.length - 1) := by
        nth_rewrite 1 [heq]
        exact List.take_prefix _ _
      have hc : containsSub pat ((x :: xs') ++ pat.take (pat.length - 1)) = true := by
        rw [List.cons_append]
        simp only [containsSub, Bool.or_eq_true]
        refine Or.inl ?_
        rw [← List.cons_append]
        exact List.isPrefixOf_iff_prefix.mpr hpre3
      rw [hno] at hc
      exact Bool.false_ne_true hc
    have hno' : containsSub pat (xs' ++ pat.take (pat.length - 1)) = false := by
      rw [List.cons_append] at hno
      simp only [containsSub, Bool.or_eq_false_iff] at hno
      exact hno.2
    rw [List.cons_append]
    simp only [splitFirstSub]
    rw [if_neg hnotpre, ih hno']

/-- Splitting the composed body at the first blank line and then at the
boundary marker returns exactly the manifest bytes the composer was given:
the byte-identity core of the passthrough property. -/
theorem extractManifestPart_createMultipartResponse
    (manifestJson extensionsJson : String) (signature : Option String)
    (protocolVersion boundary : String)
    (hHdr : containsSub ("\r\n\r\n").data
      ((("--" ++ boundary ++ "\r\n" ++
         "Content-Type: application/json; charset=utf-8\r\n" ++
         "Content-Disposition: form-data; name=\"manifest\"" ++
         (if jsTruthy signature then "\r\nexpo-signature: " ++ signature.getD "" else ""))).data ++
       ("\r\n\r\n").data.take (("\r\n\r\n").data.length - 1)) = false)
    (hEntry : containsSub ("\r\n--" ++ boundary).data
      (manifestJson.data ++
       ("\r\n--" ++ boundary).data.take (("\r\n--" ++ boundary).data.length - 1)) = false) :
    extractManifestPart boundary
      (createMultipartResponse manifestJson extensionsJson signature protocolVersion boundary).body =
      some manifestJson := by
  have hbody : (createMultipartResponse manifestJson extensionsJson signature
      protocolVersion boundary).body.data =
      (("--" ++ boundary ++ "\r\n" ++
        "Content-Type: application/json; charset=utf-8\r\n" ++
        "Content-Disposition: form-data; name=\"manifest\"" ++
        (if jsTruthy signature then "\r\nexpo-signature: " ++ signature.getD "" else ""))).data ++
      (("\r\n\r\n").data ++
       (manifestJson.data ++
        (("\r\n--" ++ boundary).data ++
         ("\r\n" ++
          "Content-Type: application/json\r\n" ++
          "Content-Disposition: form-data; name=\"extensions\"\r\n" ++
          "\r\n" ++
          extensionsJson ++ "\r\n" ++
          "--" ++ boundary ++ "--\r\n").data))) := by
    unfold createMultipartResponse
    by_cases hsig : jsTruthy signature
    · simp only [hsig, if_true, String.data_append]
      simp only [List.append_assoc, List.cons_append, List.nil_append]
    · simp only [hsig, Bool.false_eq_true, if_false, String.data_append]
      simp only [List.append_assoc, List.cons_append, List.nil_append]
  have hne2 : (("\r\n--" ++ boundary)).data ≠ [] := by
    intro hcontra
    have hzero : (("\r\n--" ++ boundary)).data.length = 0 := by rw [hcontra]; rfl
    rw [String.data_append] at hzero
    simp at hzero
  unfold extractManifestPart afterFirst beforeFirst
  rw [hbody]
  rw [splitFirstSub_append ("\r\n\r\n").data _ _ (by decide) hHdr]
  simp only [Option.map_some', Option.some_bind]
  rw [splitFirstSub_append (("\r\n--" ++ boundary)).data _ _ hne2 hEntry]
  rfl

/- ====================================================================
   Section 11: claim C3 (signed-manifest passthrough)
   ==================================================================== -/

/-- Keyed access into a parsed JSON object of string values, as an
association list (models signedManifests[platform]). -/
def lookupAssoc (key : String) (m : List (String × String)) : Option String :=
  (m.find? (fun e => e.1 == key)).map (fun e => e.2)

/-- Modelled from the spec: the GET /api/manifest branch for uploads that
carry a pre-signed manifest. The current route handler implementing this
branch is not among the provided sources; its callee createMultipartResponse
(the manifestString parameter) is translated from the source above. Per
spec 4.7 step 3, when upload.signed_manifest_json parsed as a platform map
holds an entry for the requested platform, that entry is passed verbatim as
the manifest string, and upload.manifest_signature parsed the same way
provides the signature. -/
def composePassthrough (signedMap sigMap : List (String × String))
    (platform protocolVersion boundary extensionsJson : String) : Option MultipartResponse :=
  match lookupAssoc platform signedMap with
  | some entry =>
      some (createMultipartResponse entry extensionsJson (lookupAssoc platform sigMap)
        protocolVersion boundary)
  | none => none

/-- C3: when the stored signed manifest map holds an entry for the
requested platform, the bytes between the blank line and the closing
boundary of the first multipart part are byte-identical to that entry, and
the stored signature entry for the platform is emitted as the
expo-signature header. The two containsSub hypotheses say the part headers
hold no premature blank line and the entry does not contain the boundary
marker; both hold for any real boundary (no CR or LF characters) and any
single-line JSON manifest. -/
theorem claim_C3 (signedMap sigMap : List (String × String))
    (platform protocolVersion boundary extensionsJson entry : String)
    (hentry : lookupAssoc platform signedMap = some entry)
    (hHdr : containsSub ("\r\n\r\n").data
      ((("--" ++ boundary ++ "\r\n" ++
         "Content-Type: application/json; charset=utf-8\r\n" ++
         "Content-Disposition: form-data; name=\"manifest\"" ++
         (if jsTruthy (lookupAssoc platform sigMap) then
            "\r\nexpo-signature: " ++ (lookupAssoc platform sigMap).getD ""
          else ""))).data ++
       ("\r\n\r\n").data.take (("\r\n\r\n").data.length - 1)) = false)
    (hEntry : containsSub ("\r\n--" ++ boundary).data
      (entry.data ++
       ("\r\n--" ++ boundary).data.take (("\r\n--" ++ boundary).data.length - 1)) = false) :
    ∃ resp, composePassthrough signedMap sigMap platform protocolVersion boundary
        extensionsJson = some resp ∧
      extractManifestPart boundary resp.body = some entry ∧
      (∀ s, lookupAssoc platform sigMap = some s → s ≠ "" →
        ("expo-signature", s) ∈ resp.headers) := by
  have hcomp : composePassthrough signedMap sigMap platform protocolVersion boundary
      extensionsJson =
      some (createMultipartResponse entry extensionsJson (lookupAssoc platform sigMap)
        protocolVersion boundary) := by
    unfold composePassthrough
    rw [hentry]
  refine ⟨_, hcomp,
    extractManifestPart_createMultipartResponse entry extensionsJson
      (lookupAssoc platform sigMap) protocolVersion boundary hHdr hEntry, ?_⟩
  intro s hs hs'
  unfold createMultipartResponse
  rw [hs]
  have : jsTruthy (some s) = true := by simp [jsTruthy, hs']
  simp [this]

/-- Witness maps for the C3 passthrough scenario. -/
def c3SignedMap : List (String × String) := [("ios", "\x7b\"id\":\"u1\"\x7d")]

/-- Witness signature map for the C3 passthrough scenario. -/
def c3SigMap : List (String × String) := [("ios", "sig-bytes-base64")]

/-- Witness: the passthrough composer at a concrete signed upload emits the
stored ios entry byte-identically and the stored signature header. -/
theorem claim_C3_witness :
    ∃ resp, composePassthrough c3SignedMap c3SigMap "ios" "1" "BOUNDARYX"
        "\x7b\"assetRequestHeaders\":\x7b\x7d\x7d" = some resp ∧
      extractManifestPart "BOUNDARYX" resp.body = some "\x7b\"id\":\"u1\"\x7d" ∧
      (∀ s, lookupAssoc "ios" c3SigMap = some s → s ≠ "" →
        ("expo-signature", s) ∈ resp.headers) :=
  claim_C3 c3SignedMap c3SigMap "ios" "1" "BOUNDARYX"
    "\x7b\"assetRequestHeaders\":\x7b\x7d\x7d" "\x7b\"id\":\"u1\"\x7d"
    (by decide) (by decide) (by decide)

/- ====================================================================
   Section 12: ingestion (POST /upload, newest uploads.ts) and claims
   C4 and C5
   ==================================================================== -/

/-- routes/uploads.ts POST /upload platform validation: a header value in
ios, android, all is kept, anything else (or an absent header) becomes
all. -/
def validatePlatform (platformHeader : Option String) : String :=
  match platformHeader with
  | some p => if p == "ios" || p == "android" || p == "all" then p else "all"
  | none => "all"

/-- Outcome of decoding and parsing the x-signed-manifest header (atob plus
two JSON.parse calls, all inside one try). failed is any throw; noEntry is
a parsed map with no truthy ios or android entry; entry carries the id
field of the first platform manifest (ios preferred over android). -/
inductive SignedManifestParse where
  | failed
  | noEntry
  | entry (id : Option String)
deriving DecidableEq

/-- The updateId derivation of POST /upload (newest uploads.ts, lines
228-260): a truthy id inside a pre-signed manifest wins; a parse throw
falls back to the metadata hash without the platform suffix; with no
signed manifest, metadata.json present hashes metadata_json, a colon and
the platform; otherwise the fresh random UUID stands. -/
def deriveUpdateId (freshUuid : String) (signedManifest : Option SignedManifestParse)
    (metadataJson : Option String) (platform : String) : String :=
  match signedManifest with
  | some .failed =>
    match metadataJson with
    | some m => hashToUuid (hashAsset (strBytes m))
    | none => freshUuid
  | some .noEntry => freshUuid
  | some (.entry id) =>
    match id with
    | some i => if i == "" then freshUuid else i
    | none => freshUuid
  | none =>
    match metadataJson with
    | some m => hashToUuid (hashAsset (strBytes (m ++ ":" ++ platform)))
    | none => freshUuid

/-- One POST /upload request after authentication and multipart reception.
External decode and parse results (atob, JSON.parse and the pre-computed
assets manifest serialization) are carried in parsed or processed form;
freshUuid stands for crypto.randomUUID(). -/
structure UploadRequest where
  project : String
  version : String
  releaseChannel : String
  platformHeader : Option String
  gitBranch : Option String
  gitCommit : Option String
  signedManifestParse : Option SignedManifestParse
  signedManifestText : Option String
  manifestSignatureText : Option String
  metadataJson : Option String
  appJsonProcessed : Option String
  assetsManifestJson : Option String
  files : List (String × List Nat)
  freshUuid : String
  now : Nat

/-- The uploads row the newest POST /upload inserts (lines 339-361): the
primary id is the derived updateId, the update_id column repeats it, the
prefix embeds it, and the status is ready. -/
def mkNewUpload (req : UploadRequest) : Upload :=
  { id := deriveUpdateId req.freshUuid req.signedManifestParse req.metadataJson
      (validatePlatform req.platformHeader),
    project := req.project,
    version := req.version,
    releaseChannel := req.releaseChannel,
    platform := validatePlatform req.platformHeader,
    status := "ready",
    r2Path := "updates/" ++ req.project ++ "/" ++ req.version ++ "/" ++
      deriveUpdateId req.freshUuid req.signedManifestParse req.metadataJson
        (validatePlatform req.platformHeader),
    metadataJson := req.metadataJson,
    appJson := req.appJsonProcessed,
    assetsManifest := req.assetsManifestJson,
    updateId := some (deriveUpdateId req.freshUuid req.signedManifestParse req.metadataJson
      (validatePlatform req.platformHeader)),
    signedManifest := req.signedManifestText,
    manifestSignature := req.manifestSignatureText,
    gitBranch := req.gitBranch,
    gitCommit := req.gitCommit,
    size := (req.files.map (fun f => f.2.length)).sum,
    createdAt := req.now,
    releasedAt := none,
    updatedAt := req.now }

/-- The id the composed manifest advertises for an upload: the JavaScript
expression update.updateId || update.id of the manifest handler (a null or
empty update_id column falls back to the primary id). -/
def advertisedId (u : Upload) : String :=
  match u.updateId with
  | some s => if s == "" then u.id else s
  | none => u.id

/-- C4: for every row the ingestion pipeline creates, the primary id equals
the updateId the composed manifest advertises for that row; the newest
insert uses id = updateId, and the composer falls back to the primary id
exactly when the update_id column is falsy. -/
theorem claim_C4 (req : UploadRequest) : advertisedId (mkNewUpload req) = (mkNewUpload req).id := by
  have h : advertisedId (mkNewUpload req) =
      (if ((mkNewUpload req).id == "") = true then (mkNewUpload req).id
       else (mkNewUpload req).id) := rfl
  rw [h]
  split <;> rfl

/-- The C5 witness request: plain metadata upload of the two-byte document
for the ios platform, no signed manifest. -/
def c5Request : UploadRequest :=
  { project := "myapp", version := "1.0.0", releaseChannel := "production",
    platformHeader := some "ios", gitBranch := none, gitCommit := none,
    signedManifestParse := none, signedManifestText := none,
    manifestSignatureText := none, metadataJson := some "\x7b\x7d",
    appJsonProcessed := none, assetsManifestJson := none, files := [],
    freshUuid := "99999999-9999-9999-9999-999999999999", now := 0 }

/-- C5: an upload request with no signed manifest and a metadata.json file
derives updateId = hash_to_uuid(sha256_b64url(metadata_json, a colon, and
the platform)); evaluated on identical metadata bytes under ios and
android, the two derived identifiers differ. -/
theorem claim_C5 :
    (∀ (req : UploadRequest) (m : String),
      req.signedManifestParse = none → req.metadataJson = some m →
      (mkNewUpload req).updateId =
        some (hashToUuid (hashAsset (strBytes
          (m ++ ":" ++ validatePlatform req.platformHeader))))) ∧
    deriveUpdateId "r1" none (some "\x7b\x7d") "ios" ≠
      deriveUpdateId "r2" none (some "\x7b\x7d") "android" := by
  constructor
  · intro req m h1 h2
    unfold mkNewUpload deriveUpdateId
    rw [h1, h2]
  · decide

/-- Witness: the C5 derivation evaluated on the concrete request. -/
theorem claim_C5_witness :
    (mkNewUpload c5Request).updateId =
      some (hashToUuid (hashAsset (strBytes
        ("\x7b\x7d" ++ ":" ++ validatePlatform (some "ios"))))) :=
  claim_C5.1 c5Request "\x7b\x7d" rfl rfl

/- ====================================================================
   Section 13: manifest composition (routes/api.ts GET /api/manifest)
   ==================================================================== -/

/-- One entry of metadata.json fileMetadata.<platform>.assets. -/
structure AssetFileMeta where
  path : String
  ext : String
deriving DecidableEq

/-- metadata.json fileMetadata.<platform>: the bundle path and the assets. -/
structure PlatformFileMeta where
  bundle : String
  assets : List AssetFileMeta
deriving DecidableEq

/-- The parsed metadata.json document (fileMetadata by platform). -/
structure ParsedMetadata where
  ios : Option PlatformFileMeta
  android : Option PlatformFileMeta
deriving DecidableEq

/-- metadata.fileMetadata?.[platform] for the two platforms the request
parser admits. -/
def ParsedMetadata.forPlatform (m : ParsedMetadata) (p : String) : Option PlatformFileMeta :=
  if p == "ios" then m.ios else if p == "android" then m.android else none

/-- One asset entry of a composed Expo manifest. -/
structure ExpoAsset where
  hash : String
  key : String
  fileExtension : String
  contentType : String
  url : String
deriving DecidableEq

/-- A composed Expo manifest. extra.expoClient is carried as the stored
app-config text (its JSON parse is external). -/
structure ExpoManifest where
  id : String
  createdAt : String
  runtimeVersion : String
  launchAsset : ExpoAsset
  assets : List ExpoAsset
  expoClient : String
deriving DecidableEq

/-- The parsed device request context of GET /api/manifest (the optional
client tracking identifiers play no role in composition and are omitted). -/
structure ExpoRequestContext where
  project : String
  platform : String
  runtimeVersion : String
  releaseChannel : String
  protocolVersion : String
  expectSignature : Bool
deriving DecidableEq

/-- The extension to content-type table of the manifest handler. -/
def getContentType (ext : String) : String :=
  if ext == ".js" then "application/javascript"
  else if ext == ".json" then "application/json"
  else if ext == ".png" then "image/png"
  else if ext == ".jpg" then "image/jpeg"
  else if ext == ".jpeg" then "image/jpeg"
  else if ext == ".gif" then "image/gif"
  else if ext == ".svg" then "image/svg+xml"
  else if ext == ".ttf" then "font/ttf"
  else if ext == ".otf" then "font/otf"
  else if ext == ".woff" then "font/woff"
  else if ext == ".woff2" then "font/woff2"
  else if ext == ".mp3" then "audio/mpeg"
  else if ext == ".mp4" then "video/mp4"
  else if ext == ".webm" then "video/webm"
  else "application/octet-stream"

/-- Characters encodeURIComponent leaves as they are. -/
def isUnreservedURI (c : Char) : Bool :=
  ('A' ≤ c && c ≤ 'Z') || ('a' ≤ c && c ≤ 'z') || ('0' ≤ c && c ≤ '9') ||
  c == '-' || c == '_' || c == '.' || c == '!' || c == '~' || c == '*' ||
  c == '(' || c == ')' || c == Char.ofNat 39

/-- An upper-case hexadecimal digit. -/
def hexUpper (n : Nat) : Char := "0123456789ABCDEF".data.getD n '0'

/-- JavaScript encodeURIComponent: unreserved characters stay, everything
else is percent-encoded over its UTF-8 bytes. -/
def encodeURIComponent (s : String) : String :=
  String.mk (s.data.flatMap (fun c =>
    if isUnreservedURI c then [c]
    else (utf8Bytes c).flatMap (fun b => ['%', hexUpper (b >>> 4), hexUpper (b % 16)])))

/-- The asset-serving URL the manifest advertises. -/
def assetUrl (publicUrl assetPath contentType platform : String) : String :=
  publicUrl ++ "/api/assets?asset=" ++ encodeURIComponent assetPath ++
  "&contentType=" ++ encodeURIComponent contentType ++ "&platform=" ++ platform

/-- The launch asset entry (main bundle) of the composed manifest. The md5
argument is the imported js-md5 routine. -/
def mkLaunchAsset (md5 : List Nat → String) (publicUrl platform bundlePath : String)
    (bundleData : List Nat) : ExpoAsset :=
  { hash := hashAsset bundleData, key := md5 bundleData, fileExtension := ".bundle",
    contentType := "application/javascript",
    url := assetUrl publicUrl bundlePath "application/javascript" platform }

/-- One non-bundle asset entry of the composed manifest. -/
def mkManifestAsset (md5 : List Nat → String) (publicUrl platform basePath : String)
    (asset : AssetFileMeta) (assetData : List Nat) : ExpoAsset :=
  { hash := hashAsset assetData, key := md5 assetData, fileExtension := asset.ext,
    contentType := getContentType asset.ext,
    url := assetUrl publicUrl (basePath ++ "/" ++ asset.path) (getContentType asset.ext)
      platform }

/-- The WHERE clause of the manifest query: released rows of the requested
project, runtime version and channel. -/
def matchesManifestQuery (ctx : ExpoRequestContext) (u : Upload) : Bool :=
  u.project == ctx.project && u.version == ctx.runtimeVersion &&
  u.releaseChannel == ctx.releaseChannel && u.status == "released"

/-- ORDER BY released_at DESC LIMIT 1 over the filtered rows (ties keep the
earlier row; SQLite leaves their order unspecified). -/
def selectLatestReleased (db : List Upload) (ctx : ExpoRequestContext) : Option Upload :=
  (db.filter (matchesManifestQuery ctx)).foldl
    (fun acc u =>
      match acc with
      | none => some u
      | some b => if releasedAtVal b < releasedAtVal u then some u else some b) none

/-- services/manifest.ts signManifest: sign the manifest text with
RSA-SHA256 (the Web Crypto call is the cryptoSign argument, returning the
raw signature bytes or failing) and format the Structured-Headers
dictionary; a failure throws Manifest signing failed. -/
def signManifest (cryptoSign : String → String → Option (List Nat))
    (manifestJson privateKeyPem : String) : Except String String :=
  match cryptoSign manifestJson privateKeyPem with
  | some sigBytes => .ok ("sig=\"" ++ arrayBufferToBase64 sigBytes ++ "\", keyid=\"main\"")
  | none => .error "Manifest signing failed"

/-- The signing step of the manifest handler: only when the device asked
for a signature and the application row holds a truthy private key is
signManifest invoked; its failure propagates as a thrown error. -/
def signStep (ctx : ExpoRequestContext) (appsDb : List App)
    (stringify : ExpoManifest → String) (cryptoSign : String → String → Option (List Nat))
    (manifest : ExpoManifest) : Except String (Option String) :=
  if ctx.expectSignature then
    match appsDb.find? (fun a => a.id == ctx.project) with
    | some app =>
      match app.privateKey with
      | some key =>
        if key == "" then .ok none
        else (signManifest cryptoSign (stringify manifest) key).map some
      | none => .ok none
    | none => .ok none
  else .ok none

/-- The manifest object step 7 of the handler builds: id, createdAt (the
toIso argument is Date.toISOString), runtime version, the launch asset,
and the metadata-listed assets that are present in the object store (an
absent asset is skipped by the if (assetObject) guard). -/
def composeUnsignedManifest (ctx : ExpoRequestContext) (update : Upload)
    (pm : PlatformFileMeta) (bundleData : List Nat) (r2 : String → Option (List Nat))
    (md5 : List Nat → String) (toIso : Nat → String) (publicUrl : String) : ExpoManifest :=
  { id := advertisedId update,
    createdAt := toIso update.createdAt,
    runtimeVersion := ctx.runtimeVersion,
    launchAsset := mkLaunchAsset md5 publicUrl ctx.platform
      (update.r2Path ++ "/" ++ pm.bundle) bundleData,
    assets := pm.assets.filterMap (fun a =>
      match r2 (update.r2Path ++ "/" ++ a.path) with
      | some assetData =>
        some (mkManifestAsset md5 publicUrl ctx.platform update.r2Path a assetData)
      | none => none),
    expoClient := update.appJson.getD "\x7b\x7d" }

/-- The outcome of the manifest route: a JSON error response or the
multipart manifest response (recording the composed manifest and the
signature passed to the encoder). -/
inductive HandlerResult where
  | json (status : Nat) (message : String)
  | manifestOk (manifest : ExpoManifest) (signature : Option String)
      (response : MultipartResponse)
deriving DecidableEq

/-- GET /api/manifest (routes/api.ts): query the latest released row, read
the platform metadata, load the bundle (absent bundle is a 500), build the
asset list skipping absent objects, sign on request, and emit the
multipart response. A thrown signing error escapes as Except.error. -/
def manifestHandler (ctx : ExpoRequestContext) (uploadsDb : List Upload) (appsDb : List App)
    (r2 : String → Option (List Nat)) (parseMeta : String → ParsedMetadata)
    (md5 : List Nat → String) (toIso : Nat → String) (stringify : ExpoManifest → String)
    (cryptoSign : String → String → Option (List Nat)) (publicUrl boundary : String) :
    Except String HandlerResult :=
  match selectLatestReleased uploadsDb ctx with
  | none => .ok (.json 404 "No updates available")
  | some update =>
    match (parseMeta (update.metadataJson.getD "\x7b\x7d")).forPlatform ctx.platform with
    | none => .ok (.json 404 ("No " ++ ctx.platform ++ " assets in update"))
    | some pm =>
      match r2 (update.r2Path ++ "/" ++ pm.bundle) with
      | none => .ok (.json 500 "Bundle not found")
      | some bundleData =>
        match signStep ctx appsDb stringify cryptoSign
          (composeUnsignedManifest ctx update pm bundleData r2 md5 toIso publicUrl) with
        | .error e => .error e
        | .ok signature =>
          .ok (.manifestOk
            (composeUnsignedManifest ctx update pm bundleData r2 md5 toIso publicUrl)
            signature
            (createMultipartResponse
              (stringify (composeUnsignedManifest ctx update pm bundleData r2 md5 toIso publicUrl))
              "\x7b\"assetRequestHeaders\":\x7b\x7d\x7d" signature ctx.protocolVersion boundary))

/-- Substring test over strings (String.prototype.includes). -/
def containsSubstr (pat s : String) : Bool := containsSub pat.data s.data

/-- The app.onError handler of index.ts: 401 for messages containing
Unauthorized, 404 for Not Found, otherwise 500. -/
def onError (message : String) : Nat × String :=
  if containsSubstr "Unauthorized" message then (401, "Unauthorized")
  else if containsSubstr "Not Found" message then (404, "Not Found")
  else (500, "Internal Server Error")

/-- The manifest route with the framework error boundary around it. -/
def handleManifestRequest (ctx : ExpoRequestContext) (uploadsDb : List Upload)
    (appsDb : List App) (r2 : String → Option (List Nat))
    (parseMeta : String → ParsedMetadata) (md5 : List Nat → String) (toIso : Nat → String)
    (stringify : ExpoManifest → String) (cryptoSign : String → String → Option (List Nat))
    (publicUrl boundary : String) : HandlerResult :=
  match manifestHandler ctx uploadsDb appsDb r2 parseMeta md5 toIso stringify cryptoSign
    publicUrl boundary with
  | .ok r => r
  | .error msg => .json (onError msg).1 (onError msg).2

/- ====================================================================
   Section 14: claim C8 (fail-closed signing)
   ==================================================================== -/

/-- C8: when the device asked for a signature, the application holds a
truthy private key, and the Web Crypto signing call fails, the request
answers 500 Internal Server Error (the thrown Manifest signing failed
reaches app.onError) and never a manifest; conversely an unsigned
manifest response arises only when no signature was requested or the
application row holds no usable private key (null, or the empty string
that the if (app?.privateKey) truthiness check treats as absent). -/
theorem claim_C8 :
    (∀ (ctx : ExpoRequestContext) (uploadsDb : List Upload) (appsDb : List App)
       (r2 : String → Option (List Nat)) (parseMeta : String → ParsedMetadata)
       (md5 : List Nat → String) (toIso : Nat → String) (stringify : ExpoManifest → String)
       (cryptoSign : String → String → Option (List Nat)) (publicUrl boundary : String)
       (update : Upload) (pm : PlatformFileMeta) (bundleData : List Nat) (app : App)
       (key : String),
      selectLatestReleased uploadsDb ctx = some update →
      (parseMeta (update.metadataJson.getD "\x7b\x7d")).forPlatform ctx.platform = some pm →
      r2 (update.r2Path ++ "/" ++ pm.bundle) = some bundleData →
      ctx.expectSignature = true →
      appsDb.find? (fun a => a.id == ctx.project) = some app →
      app.privateKey = some key → key ≠ "" →
      cryptoSign (stringify (composeUnsignedManifest ctx update pm bundleData r2 md5 toIso
        publicUrl)) key = none →
      handleManifestRequest ctx uploadsDb appsDb r2 parseMeta md5 toIso stringify cryptoSign
        publicUrl boundary = .json 500 "Internal Server Error") ∧
    (∀ (ctx : ExpoRequestContext) (uploadsDb : List Upload) (appsDb : List App)
       (r2 : String → Option (List Nat)) (parseMeta : String → ParsedMetadata)
       (md5 : List Nat → String) (toIso : Nat → String) (stringify : ExpoManifest → String)
       (cryptoSign : String → String → Option (List Nat)) (publicUrl boundary : String)
       (m : ExpoManifest) (resp : MultipartResponse),
      handleManifestRequest ctx uploadsDb appsDb r2 parseMeta md5 toIso stringify cryptoSign
        publicUrl boundary = .manifestOk m none resp →
      ctx.expectSignature = false ∨
      (∀ app, appsDb.find? (fun a => a.id == ctx.project) = some app →
        app.privateKey = none ∨ app.privateKey = some "")) := by
  constructor
  · intro ctx uploadsDb appsDb r2 parseMeta md5 toIso stringify cryptoSign publicUrl boundary
      update pm bundleData app key hsel hmeta hbundle hexp happ hkey hkne hfail
    have hkf : (key == "") = false := by simp [hkne]
    unfold handleManifestRequest manifestHandler signStep signManifest
    simp only [hsel, hmeta, hbundle, hexp, if_true, happ, hkey, hkf, Bool.false_eq_true,
      if_false, hfail, Except.map]
    decide
  · intro ctx uploadsDb appsDb r2 parseMeta md5 toIso stringify cryptoSign publicUrl boundary
      m resp hres
    by_cases hexp : ctx.expectSignature
    · refine Or.inr ?_
      intro app happ
      by_cases hk : app.privateKey = none
      · exact Or.inl hk
      · obtain ⟨key, hkey⟩ := Option.ne_none_iff_exists'.mp hk
        by_cases hke : key = ""
        · exact Or.inr (hke ▸ hkey)
        · exfalso
          have hkf : (key == "") = false := by simp [hke]
          unfold handleManifestRequest manifestHandler at hres
          cases hsel : selectLatestReleased uploadsDb ctx with
          | none => simp only [hsel] at hres; simp at hres
          | some update =>
            simp only [hsel] at hres
            cases hmeta : (parseMeta (update.metadataJson.getD "\x7b\x7d")).forPlatform
                ctx.platform with
            | none => simp only [hmeta] at hres; simp at hres
            | some pm =>
              simp only [hmeta] at hres
              cases hbundle : r2 (update.r2Path ++ "/" ++ pm.bundle) with
              | none => simp only [hbundle] at hres; simp at hres
              | some bundleData =>
                simp only [hbundle] at hres
                unfold signStep signManifest at hres
                simp only [hexp, if_true, happ, hkey, hkf, Bool.false_eq_true, if_false] at hres
                cases hcs : cryptoSign (stringify (composeUnsignedManifest ctx update pm
                    bundleData r2 md5 toIso publicUrl)) key with
                | some sigBytes => simp only [hcs, Except.map] at hres; simp at hres
                | none => simp only [hcs, Except.map] at hres; simp at hres
    · exact Or.inl (by simpa using hexp)

/- ====================================================================
   Section 15: claim C9 (asset loop: absent bundle fails, absent assets
   are silently omitted)
   ==================================================================== -/

theorem length_filterMap_eq_countP {α β : Type} (f : α → Option β) (l : List α) :
    (l.filterMap f).length = l.countP (fun x => (f x).isSome) := by
  induction l with
  | nil => rfl
  | cons x xs ih =>
    cases hf : f x with
    | none => simp [List.filterMap_cons, hf, List.countP_cons, ih]
    | some b => simp [List.filterMap_cons, hf, List.countP_cons, ih]

/-- C9: under a served upload and present platform metadata, an absent
launch bundle makes the route answer 500 Bundle not found, while a
metadata-listed asset absent from the object store is silently omitted:
the response is still the multipart manifest, every asset entry of the
composed manifest corresponds to a listed asset whose key is present in
the store, and the assets array length is exactly the number of listed
assets whose keys are present. -/
theorem claim_C9 (ctx : ExpoRequestContext) (uploadsDb : List Upload) (appsDb : List App)
    (r2 : String → Option (List Nat)) (parseMeta : String → ParsedMetadata)
    (md5 : List Nat → String) (toIso : Nat → String) (stringify : ExpoManifest → String)
    (cryptoSign : String → String → Option (List Nat)) (publicUrl boundary : String)
    (update : Upload) (pm : PlatformFileMeta)
    (hsel : selectLatestReleased uploadsDb ctx = some update)
    (hmeta : (parseMeta (update.metadataJson.getD "\x7b\x7d")).forPlatform ctx.platform =
      some pm) :
    (r2 (update.r2Path ++ "/" ++ pm.bundle) = none →
      manifestHandler ctx uploadsDb appsDb r2 parseMeta md5 toIso stringify cryptoSign
        publicUrl boundary = .ok (.json 500 "Bundle not found")) ∧
    (∀ (bundleData : List Nat) (sig : Option String),
      r2 (update.r2Path ++ "/" ++ pm.bundle) = some bundleData →
      signStep ctx appsDb stringify cryptoSign
        (composeUnsignedManifest ctx update pm bundleData r2 md5 toIso publicUrl) = .ok sig →
      manifestHandler ctx uploadsDb appsDb r2 parseMeta md5 toIso stringify cryptoSign
        publicUrl boundary =
        .ok (.manifestOk (composeUnsignedManifest ctx update pm bundleData r2 md5 toIso publicUrl)
          sig
          (createMultipartResponse
            (stringify (composeUnsignedManifest ctx update pm bundleData r2 md5 toIso publicUrl))
            "\x7b\"assetRequestHeaders\":\x7b\x7d\x7d" sig ctx.protocolVersion boundary)) ∧
      (∀ a ∈ (composeUnsignedManifest ctx update pm bundleData r2 md5 toIso publicUrl).assets,
        ∃ am ∈ pm.assets, ∃ d,
          r2 (update.r2Path ++ "/" ++ am.path) = some d ∧
          a = mkManifestAsset md5 publicUrl ctx.platform update.r2Path am d) ∧
      (composeUnsignedManifest ctx update pm bundleData r2 md5 toIso publicUrl).assets.length =
        pm.assets.countP (fun am => (r2 (update.r2Path ++ "/" ++ am.path)).isSome)) := by
  constructor
  · intro hb
    unfold manifestHandler
    simp only [hsel, hmeta, hb]
  · intro bundleData sig hb hsign
    refine ⟨?_, ?_, ?_⟩
    · unfold manifestHandler
      simp only [hsel, hmeta, hb, hsign]
    · intro a ha
      unfold composeUnsignedManifest at ha
      simp only [List.mem_filterMap] at ha
      obtain ⟨am, ham, hf⟩ := ha
      cases hr : r2 (update.r2Path ++ "/" ++ am.path) with
      | none => rw [hr] at hf; simp at hf
      | some d =>
        rw [hr] at hf
        simp only [Option.some_inj] at hf
        exact ⟨am, ham, d, hr, hf.symm⟩
    · unfold composeUnsignedManifest
      simp only
      rw [length_filterMap_eq_countP]
      refine List.countP_congr ?_
      intro am _
      cases hr : r2 (update.r2Path ++ "/" ++ am.path) <;> simp [hr]

/- ====================================================================
   Section 16: concrete serving scenario shared by the C8 and C9
   witnesses
   ==================================================================== -/

/-- Platform metadata with one bundle and two listed assets. -/
def demoPm : PlatformFileMeta :=
  { bundle := "bundles/ios.hbc",
    assets := [{ path := "assets/a1", ext := ".png" }, { path := "assets/a2", ext := ".png" }] }

/-- Parsed metadata carrying the ios platform only. -/
def demoMeta : ParsedMetadata := { ios := some demoPm, android := none }

/-- The released upload row of the demo scenario. -/
def demoUpload : Upload :=
  { mkReadyUpload "u1" with
    status := "released"
    releasedAt := some 1
    metadataJson := some "DEMOMETA" }

/-- The uploads table of the demo scenario. -/
def demoDb : List Upload := [demoUpload]

/-- The metadata parse oracle of the demo scenario. -/
def demoParseMeta : String → ParsedMetadata :=
  fun s => if s == "DEMOMETA" then demoMeta else { ios := none, android := none }

/-- The object store of the demo scenario: the bundle and the first listed
asset are present, the second listed asset is absent. -/
def demoR2 : String → Option (List Nat) :=
  fun k =>
    if k == "updates/p/1.0.0/u1/bundles/ios.hbc" then some [0, 1]
    else if k == "updates/p/1.0.0/u1/assets/a1" then some [2]
    else none

/-- The parsed device request of the demo scenario. -/
def demoCtx : ExpoRequestContext :=
  { project := "p", platform := "ios", runtimeVersion := "1.0.0",
    releaseChannel := "production", protocolVersion := "0", expectSignature := true }

/-- The demo request with no signature demand. -/
def demoCtxNoSig : ExpoRequestContext := { demoCtx with expectSignature := false }

/-- The application row of the C8 witness, holding a private key. -/
def c8App : App :=
  { id := "p", name := none, privateKey := some "PEMKEY", certificate := none,
    createdAt := 0, updatedAt := 0 }

/-- Witness: with a signature demanded, a present key and a failing crypto
signing call, the concrete request answers 500 and no manifest. -/
theorem claim_C8_witness :
    handleManifestRequest demoCtx demoDb [c8App] demoR2 demoParseMeta (fun _ => "md5")
      (fun _ => "1970-01-01T00:00:00.000Z") (fun _ => "MANIFESTJSON") (fun _ _ => none)
      "https://u.example" "BOUND" = .json 500 "Internal Server Error" :=
  claim_C8.1 demoCtx demoDb [c8App] demoR2 demoParseMeta (fun _ => "md5")
    (fun _ => "1970-01-01T00:00:00.000Z") (fun _ => "MANIFESTJSON") (fun _ _ => none)
    "https://u.example" "BOUND" demoUpload demoPm [0, 1] c8App "PEMKEY"
    (by decide) (by decide) (by decide) rfl (by decide) rfl (by decide) rfl

/-- Witness: the C9 theorem evaluated on the demo scenario, where the
second listed asset is absent from the store, the response is still the
manifest, and the assets array holds exactly the one present asset. -/
theorem claim_C9_witness :
    manifestHandler demoCtxNoSig demoDb [] demoR2 demoParseMeta (fun _ => "md5")
      (fun _ => "1970-01-01T00:00:00.000Z") (fun _ => "MANIFESTJSON") (fun _ _ => none)
      "https://u.example" "BOUND" =
      .ok (.manifestOk
        (composeUnsignedManifest demoCtxNoSig demoUpload demoPm [0, 1] demoR2 (fun _ => "md5")
          (fun _ => "1970-01-01T00:00:00.000Z") "https://u.example")
        none
        (createMultipartResponse "MANIFESTJSON" "\x7b\"assetRequestHeaders\":\x7b\x7d\x7d"
          none "0" "BOUND")) ∧
    (∀ a ∈ (composeUnsignedManifest demoCtxNoSig demoUpload demoPm [0, 1] demoR2
        (fun _ => "md5") (fun _ => "1970-01-01T00:00:00.000Z") "https://u.example").assets,
      ∃ am ∈ demoPm.assets, ∃ d,
        demoR2 (demoUpload.r2Path ++ "/" ++ am.path) = some d ∧
        a = mkManifestAsset (fun _ => "md5") "https://u.example" demoCtxNoSig.platform
          demoUpload.r2Path am d) ∧
    (composeUnsignedManifest demoCtxNoSig demoUpload demoPm [0, 1] demoR2 (fun _ => "md5")
      (fun _ => "1970-01-01T00:00:00.000Z") "https://u.example").assets.length =
      demoPm.assets.countP
        (fun am => (demoR2 (demoUpload.r2Path ++ "/" ++ am.path)).isSome) :=
  (claim_C9 demoCtxNoSig demoDb [] demoR2 demoParseMeta (fun _ => "md5")
    (fun _ => "1970-01-01T00:00:00.000Z") (fun _ => "MANIFESTJSON") (fun _ _ => none)
    "https://u.example" "BOUND" demoUpload demoPm (by decide) (by decide)).2
    [0, 1] none (by decide) rfl

/- ====================================================================
   Section 17: claim C7 (GET /api/assets policy)
   ==================================================================== -/

/-- The response of the asset endpoint: a JSON error or a byte stream with
headers. -/
inductive AssetResult where
  | json (status : Nat) (message : String)
  | stream (status : Nat) (bytes : List Nat) (headers : List (String × String))
deriving DecidableEq

/-- GET /api/assets (routes/api.ts lines 179-212): a falsy asset query is
400; a key outside updates/ is 403; app.json and package.json keys are
403; a key absent from the store is 404; otherwise the bytes stream back
with the immutable cache header. -/
def assetsHandler (assetQuery contentTypeQuery : Option String)
    (r2 : String → Option (List Nat)) : AssetResult :=
  let contentType :=
    if jsTruthy contentTypeQuery then contentTypeQuery.getD ""
    else "application/octet-stream"
  match assetQuery with
  | none => .json 400 "Missing asset parameter"
  | some assetPath =>
    if assetPath == "" then .json 400 "Missing asset parameter"
    else if !(assetPath.startsWith "updates/") then .json 403 "Invalid asset path"
    else if assetPath.endsWith "app.json" || assetPath.endsWith "package.json" then
      .json 403 "Access denied"
    else
      match r2 assetPath with
      | none => .json 404 "Asset not found"
      | some bytes =>
        .stream 200 bytes
          [("Content-Type", contentType), ("Content-Length", toString bytes.length),
           ("Cache-Control", "public, max-age=31536000, immutable")]

/-- C7: a key that does not start with updates/ or that ends with app.json
or package.json yields 403; a well-formed key absent from the object store
yields 404 Asset not found; any successful stream is a 200 carrying
Cache-Control public, max-age=31536000, immutable. -/
theorem claim_C7 (contentTypeQuery : Option String) (r2 : String → Option (List Nat))
    (p : String) (hp : p ≠ "") :
    ((p.startsWith "updates/" = false ∨ p.endsWith "app.json" = true ∨
        p.endsWith "package.json" = true) →
      ∃ msg, assetsHandler (some p) contentTypeQuery r2 = .json 403 msg) ∧
    (p.startsWith "updates/" = true → p.endsWith "app.json" = false →
      p.endsWith "package.json" = false → r2 p = none →
      assetsHandler (some p) contentTypeQuery r2 = .json 404 "Asset not found") ∧
    (∀ st bytes hs, assetsHandler (some p) contentTypeQuery r2 = .stream st bytes hs →
      st = 200 ∧ ("Cache-Control", "public, max-age=31536000, immutable") ∈ hs) := by
  have hpe : (p == "") = false := by simp [hp]
  refine ⟨?_, ?_, ?_⟩
  · intro hviol
    unfold assetsHandler
    simp only [hpe, Bool.false_eq_true, if_false]
    by_cases hsw : p.startsWith "updates/"
    · have hend : (p.endsWith "app.json" || p.endsWith "package.json") = true := by
        rcases hviol with h | h | h
        · rw [hsw] at h; exact absurd h (by simp)
        · simp [h]
        · simp [h]
      simp [hsw, hend]
    · have hsw' : p.startsWith "updates/" = false := Bool.eq_false_iff.mpr hsw
      simp [hsw']
  · intro hsw hea hep hr
    unfold assetsHandler
    simp only [hpe, Bool.false_eq_true, if_false, hsw, Bool.not_true, hea, hep,
      Bool.or_self, hr]
  · intro st bytes hs h
    unfold assetsHandler at h
    simp only [hpe, Bool.false_eq_true, if_false] at h
    by_cases hsw : p.startsWith "updates/"
    · simp only [hsw, Bool.not_true, Bool.false_eq_true, if_false] at h
      by_cases hend : (p.endsWith "app.json" || p.endsWith "package.json") = true
      · simp only [hend, if_true] at h
        exact absurd h (by simp)
      · simp only [Bool.eq_false_iff.mpr hend, Bool.false_eq_true, if_false] at h
        cases hr : r2 p with
        | none => rw [hr] at h; exact absurd h (by simp)
        | some bs =>
          rw [hr] at h
          simp only [AssetResult.stream.injEq] at h
          obtain ⟨h1, _, h3⟩ := h
          exact ⟨h1.symm, by simp [← h3]⟩
    · simp only [Bool.eq_false_iff.mpr hsw, Bool.not_false, if_true] at h
      exact absurd h (by simp)

/-- Witness: the three C7 clauses evaluated on a concrete store. -/
theorem claim_C7_witness :
    ((("secrets/x" : String).startsWith "updates/" = false ∨
        ("secrets/x" : String).endsWith "app.json" = true ∨
        ("secrets/x" : String).endsWith "package.json" = true) →
      ∃ msg, assetsHandler (some "secrets/x") none (fun _ => none) = .json 403 msg) ∧
    (("secrets/x" : String).startsWith "updates/" = true →
      ("secrets/x" : String).endsWith "app.json" = false →
      ("secrets/x" : String).endsWith "package.json" = false →
      (fun _ => (none : Option (List Nat))) "secrets/x" = none →
      assetsHandler (some "secrets/x") none (fun _ => none) = .json 404 "Asset not found") ∧
    (∀ st bytes hs,
      assetsHandler (some "secrets/x") none (fun _ => none) = .stream st bytes hs →
      st = 200 ∧ ("Cache-Control", "public, max-age=31536000, immutable") ∈ hs) :=
  claim_C7 none (fun _ => none) "secrets/x" (by decide)

/- ====================================================================
   Section 18: claim C10 (private keys never leave the dashboard reads)
   ==================================================================== -/

/-- The per-row redaction of GET /apps and GET /apps/:id: a truthy private
key becomes the literal [REDACTED], anything else null (the ternary
app.privateKey ? "[REDACTED]" : null). -/
def redactApp (app : App) : App :=
  { app with privateKey := if jsTruthy app.privateKey then some "[REDACTED]" else none }

/-- GET /apps: every row redacted. -/
def listAppsHandler (db : List App) : List App := db.map redactApp

/-- The GET /apps/:id response body: the redacted row plus hasPrivateKey. -/
structure AppDetail where
  app : App
  hasPrivateKey : Bool
deriving DecidableEq

/-- GET /apps/:id: case-insensitive lookup, 404 when absent, otherwise the
redacted row with the hasPrivateKey flag. -/
def getAppHandler (db : List App) (id : String) : Option AppDetail :=
  match db.find? (fun a => a.id.toLower == id.toLower) with
  | none => none
  | some app => some { app := redactApp app, hasPrivateKey := jsTruthy app.privateKey }

/-- Two application rows equal except for the private key bytes, with the
same key truthiness (both usable or both absent-or-empty). -/
def AgreeExceptKey (a b : App) : Prop :=
  a.id = b.id ∧ a.name = b.name ∧ a.certificate = b.certificate ∧
  a.createdAt = b.createdAt ∧ a.updatedAt = b.updatedAt ∧
  jsTruthy a.privateKey = jsTruthy b.privateKey

theorem redactApp_eq_of_agree (a b : App) (h : AgreeExceptKey a b) :
    redactApp a = redactApp b := by
  obtain ⟨h1, h2, h3, h4, h5, h6⟩ := h
  cases a
  cases b
  simp only at h1 h2 h3 h4 h5 h6
  simp only [redactApp, h1, h2, h3, h4, h5, h6]

/-- An app row with a stored but empty private key. -/
def c10AppEmptyKey : App :=
  { id := "a", name := none, privateKey := some "", certificate := none,
    createdAt := 0, updatedAt := 0 }

/-- The same row with real private key bytes. -/
def c10AppRealKey : App := { c10AppEmptyKey with privateKey := some "KEYBYTES" }

/-- C10 as stated is false at one corner: two states whose stored private
keys are both non-null but one of them the empty string produce different
GET /apps bodies, because the ternary treats the empty string as absent
(null versus [REDACTED]). -/
theorem claim_C10_counterexample :
    c10AppEmptyKey.privateKey ≠ none ∧ c10AppRealKey.privateKey ≠ none ∧
    c10AppEmptyKey.id = c10AppRealKey.id ∧ c10AppEmptyKey.name = c10AppRealKey.name ∧
    c10AppEmptyKey.certificate = c10AppRealKey.certificate ∧
    c10AppEmptyKey.createdAt = c10AppRealKey.createdAt ∧
    c10AppEmptyKey.updatedAt = c10AppRealKey.updatedAt ∧
    listAppsHandler [c10AppEmptyKey] ≠ listAppsHandler [c10AppRealKey] := by
  decide

/-- C10 amended: every GET /apps and GET /apps/:id response carries
privateKey null or the literal [REDACTED]; and two database states
differing only in the bytes of stored private keys with equal truthiness
(in particular both non-empty) produce identical response bodies. -/
theorem claim_C10_amended :
    (∀ (db : List App) (a : App), a ∈ listAppsHandler db →
      a.privateKey = none ∨ a.privateKey = some "[REDACTED]") ∧
    (∀ (db : List App) (i : String) (d : AppDetail), getAppHandler db i = some d →
      d.app.privateKey = none ∨ d.app.privateKey = some "[REDACTED]") ∧
    (∀ (db1 db2 : List App), List.Forall₂ AgreeExceptKey db1 db2 →
      listAppsHandler db1 = listAppsHandler db2 ∧
      ∀ i, getAppHandler db1 i = getAppHandler db2 i) := by
  have hred : ∀ w : App, (redactApp w).privateKey = none ∨
      (redactApp w).privateKey = some "[REDACTED]" := by
    intro w
    unfold redactApp
    by_cases hw : jsTruthy w.privateKey
    · exact Or.inr (by simp [hw])
    · exact Or.inl (by simp [hw])
  refine ⟨?_, ?_, ?_⟩
  · intro db a ha
    obtain ⟨w, _, hwa⟩ := List.mem_map.mp ha
    exact hwa ▸ hred w
  · intro db i d hd
    unfold getAppHandler at hd
    cases hf : db.find? (fun a => a.id.toLower == i.toLower) with
    | none => rw [hf] at hd; exact absurd hd (by simp)
    | some app =>
      rw [hf] at hd
      simp only [Option.some_inj] at hd
      rw [← hd]
      exact hred app
  · intro db1 db2 hrel
    induction hrel with
    | nil => exact ⟨rfl, fun i => rfl⟩
    | cons hab htail ih =>
      rename_i a b l1 l2
      constructor
      · unfold listAppsHandler
        simp only [List.map_cons]
        rw [redactApp_eq_of_agree _ _ hab]
        have hrest := ih.1
        unfold listAppsHandler at hrest
        rw [hrest]
      · intro i
        unfold getAppHandler
        by_cases hcond : (a.id.toLower == i.toLower) = true
        · rw [@List.find?_cons_of_pos _ (fun x => x.id.toLower == i.toLower) a l1 hcond,
            @List.find?_cons_of_pos _ (fun x => x.id.toLower == i.toLower) b l2
              (show (b.id.toLower == i.toLower) = true by rw [← hab.1]; exact hcond)]
          simp only [Option.some_inj]
          rw [redactApp_eq_of_agree _ _ hab, hab.2.2.2.2.2]
        · rw [@List.find?_cons_of_neg _ (fun x => x.id.toLower == i.toLower) a l1 hcond,
            @List.find?_cons_of_neg _ (fun x => x.id.toLower == i.toLower) b l2
              (show ¬ (b.id.toLower == i.toLower) = true by rw [← hab.1]; exact hcond)]
          have hrest := ih.2 i
          unfold getAppHandler at hrest
          exact hrest

/-- Witness: the redaction theorem applied to the concrete key-holding row. -/
theorem claim_C10_witness :
    (redactApp c10AppRealKey).privateKey = none ∨
    (redactApp c10AppRealKey).privateKey = some "[REDACTED]" :=
  claim_C10_amended.1 [c10AppRealKey] (redactApp c10AppRealKey) (by decide)
